import Mathlib

/-!
Verification of the gpu-scheduler core (Go sources under pkg/models,
pkg/scheduler/core and pkg/storage/postgres).

The embedding is a shallow one: machine integers (`int`, `int64`) become
`Int`; `time.Time` and `time.Duration` become `Int` (nanoseconds, as in
Go's `UnixNano`); repository rows become lists of records and the GORM
calls become pure list operations assuming the store succeeds; functions
that read the clock take `now : Int` explicitly.  Fields of the Go
structs that none of the embedded functions read (telemetry, billing,
labels, ...) are omitted.  Go names are kept.
-/

namespace GpuSched

/-- Job lifecycle states (`models.JobState`). -/
inductive JobState where
  | pending | running | completed | failed | preempted | cancelled
deriving DecidableEq, Repr

/-- GPU health states (`models.GPUHealth`). -/
inductive GPUHealth where
  | healthy | warning | degraded | unhealthy
deriving DecidableEq, Repr

/-- Allocation states (`models.AllocationState`). -/
inductive AllocationState where
  | pending | active | preempted | checkpointed | migrating | completed | failed
deriving DecidableEq, Repr

/-- The quota and usage fields of `models.Tenant` (the fields read by
`HasAvailableQuota`, `UpdateUsage` and the preemptor). -/
structure Tenant where
  ID : String
  MaxGPUs : Int
  MaxGPUMemoryMB : Int
  MaxCPUCores : Int
  MaxMemoryMB : Int
  MaxConcurrentJobs : Int
  CurrentGPUs : Int
  CurrentGPUMemory : Int
  CurrentCPUCores : Int
  CurrentMemory : Int
  CurrentJobs : Int
  AllowPreemption : Bool
deriving DecidableEq, Repr

/-- `Tenant.HasAvailableQuota` from pkg/models (part_004). -/
def Tenant.HasAvailableQuota (t : Tenant) (gpus gpuMemory cpus memory : Int) : Bool :=
  decide (t.CurrentGPUs + gpus ≤ t.MaxGPUs) &&
  decide (t.CurrentGPUMemory + gpuMemory ≤ t.MaxGPUMemoryMB) &&
  decide (t.CurrentCPUCores + cpus ≤ t.MaxCPUCores) &&
  decide (t.CurrentMemory + memory ≤ t.MaxMemoryMB) &&
  decide (t.CurrentJobs + 1 ≤ t.MaxConcurrentJobs)

/-- `Tenant.UpdateUsage` from pkg/models (part_004). -/
def Tenant.UpdateUsage (t : Tenant) (gpuDelta gpuMemDelta cpuDelta memDelta jobDelta : Int) : Tenant :=
  { t with
    CurrentGPUs := t.CurrentGPUs + gpuDelta
    CurrentGPUMemory := t.CurrentGPUMemory + gpuMemDelta
    CurrentCPUCores := t.CurrentCPUCores + cpuDelta
    CurrentMemory := t.CurrentMemory + memDelta
    CurrentJobs := t.CurrentJobs + jobDelta }

/-- The fields of `models.Job` read by the scheduler core. -/
structure Job where
  ID : String
  TenantID : String
  State : JobState
  Priority : Int
  GPUCount : Int
  GPUMemoryMB : Int
  CPUCores : Int
  MemoryMB : Int
  GangScheduling : Bool
  SubmittedAt : Int
  ScheduledAt : Option Int
  StartedAt : Option Int
  CompletedAt : Option Int
  PreemptedCount : Int
deriving DecidableEq, Repr

/-- The fields of `models.GPU` read by the allocator and preemptor. -/
structure GPU where
  ID : String
  NodeID : String
  Allocated : Bool
  AllocationID : String
  JobID : String
  TenantID : String
  CoolingPeriod : Int
  ThermalThrottle : Bool
  Health : GPUHealth
deriving DecidableEq, Repr

/-- `GPU.IsAvailable` from pkg/models (part_005): `!g.Allocated &&
g.Health == HealthHealthy && !g.ThermalThrottle && time.Since(g.CoolingPeriod) > 0`.
`time.Since(t) > 0` is `now - t > 0`.  Note the function takes no
configuration: the thermal checks are unconditional. -/
def GPU.IsAvailable (g : GPU) (now : Int) : Bool :=
  !g.Allocated &&
  decide (g.Health = GPUHealth.healthy) &&
  !g.ThermalThrottle &&
  decide (now - g.CoolingPeriod > 0)

/-- The fields of `models.Node` read by the scheduler core. -/
structure Node where
  ID : String
  TotalGPUs : Int
  AvailableGPUs : Int
  TotalCPUCores : Int
  AvailableCPUCores : Int
  TotalMemoryMB : Int
  AvailableMemoryMB : Int
  Online : Bool
  Schedulable : Bool
  DrainingMode : Bool
deriving DecidableEq, Repr

/-- `Node.HasCapacity` from pkg/models (part_005). -/
def Node.HasCapacity (n : Node) (gpus cpus : Int) (memoryMB : Int) : Bool :=
  n.Online && n.Schedulable && !n.DrainingMode &&
  decide (n.AvailableGPUs ≥ gpus) &&
  decide (n.AvailableCPUCores ≥ cpus) &&
  decide (n.AvailableMemoryMB ≥ memoryMB)

/-- The fields of `models.Allocation` read by the scheduler core. -/
structure Allocation where
  ID : String
  JobID : String
  TenantID : String
  State : AllocationState
  GPUIDs : List String
  NodeID : String
  CPUCores : Int
  MemoryMB : Int
  AllocatedAt : Int
  ActualDuration : Int
  PreemptedAt : Option Int
  PreemptedBy : String
  PreemptionReason : String
  CompletedAt : Option Int
deriving DecidableEq, Repr

/-- `Allocation.CalculateDuration` from pkg/models. -/
def Allocation.CalculateDuration (a : Allocation) : Allocation :=
  match a.CompletedAt with
  | some t => { a with ActualDuration := t - a.AllocatedAt }
  | none => a

/-- `models.AllocationRequest` (the fields the allocator reads). -/
structure AllocationRequest where
  JobID : String
  TenantID : String
  GPUCount : Int
  GPUMemoryMB : Int
  CPUCores : Int
  MemoryMB : Int
  GangScheduling : Bool
deriving DecidableEq, Repr

/-- `models.AllocationResult` (the fields the scheduler reads). -/
structure AllocationResult where
  Success : Bool
  AllocationID : String
  GPUIDs : List String
  NodeID : String
  Message : String
deriving DecidableEq, Repr

/-- The repository state: one list per entity, as in the Postgres store
(part_001).  List order stands for the unspecified row order the store
returns. -/
structure World where
  jobs : List Job
  tenants : List Tenant
  gpus : List GPU
  nodes : List Node
  allocations : List Allocation
deriving DecidableEq, Repr

/-- `GetJob`: first row with the id, `not-found` as `none`. -/
def getJob (w : World) (jobID : String) : Option Job :=
  w.jobs.find? (fun j => j.ID == jobID)

/-- `UpdateJob` (`Save` by primary key): replace the rows with this id. -/
def updateJob (w : World) (job : Job) : World :=
  { w with jobs := w.jobs.map (fun j => if j.ID == job.ID then job else j) }

/-- `CreateJob`: insert a new row. -/
def createJob (w : World) (job : Job) : World :=
  { w with jobs := w.jobs ++ [job] }

/-- `ListJobsByState` (part_001 lines 97-101): filter by state, with NO
`ORDER BY` clause - rows come back in store order. -/
def listJobsByState (w : World) (state : JobState) : List Job :=
  w.jobs.filter (fun j => j.State == state)

/-- `GetTenant`. -/
def getTenant (w : World) (tenantID : String) : Option Tenant :=
  w.tenants.find? (fun t => t.ID == tenantID)

/-- `UpdateTenant`. -/
def updateTenant (w : World) (tenant : Tenant) : World :=
  { w with tenants := w.tenants.map (fun t => if t.ID == tenant.ID then tenant else t) }

/-- `GetGPU`. -/
def getGPU (w : World) (gpuID : String) : Option GPU :=
  w.gpus.find? (fun g => g.ID == gpuID)

/-- `UpdateGPU`. -/
def updateGPU (w : World) (gpu : GPU) : World :=
  { w with gpus := w.gpus.map (fun g => if g.ID == gpu.ID then gpu else g) }

/-- `ListGPUsByNode`. -/
def listGPUsByNode (w : World) (nodeID : String) : List GPU :=
  w.gpus.filter (fun g => g.NodeID == nodeID)

/-- `GetNode`. -/
def getNode (w : World) (nodeID : String) : Option Node :=
  w.nodes.find? (fun n => n.ID == nodeID)

/-- `UpdateNode`. -/
def updateNode (w : World) (node : Node) : World :=
  { w with nodes := w.nodes.map (fun n => if n.ID == node.ID then node else n) }

/-- `ListNodes` (part_001): only rows with `online = true`. -/
def listNodes (w : World) : List Node :=
  w.nodes.filter (fun n => n.Online)

/-- `GetAllocation`. -/
def getAllocation (w : World) (allocationID : String) : Option Allocation :=
  w.allocations.find? (fun a => a.ID == allocationID)

/-- `UpdateAllocation`. -/
def updateAllocation (w : World) (allocation : Allocation) : World :=
  { w with allocations := w.allocations.map (fun a => if a.ID == allocation.ID then allocation else a) }

/-- `CreateAllocation`. -/
def createAllocationRow (w : World) (allocation : Allocation) : World :=
  { w with allocations := w.allocations ++ [allocation] }

/-- `GetJobAllocations`: all allocations of the job, in any state. -/
def getJobAllocations (w : World) (jobID : String) : List Allocation :=
  w.allocations.filter (fun a => a.JobID == jobID)

/-- `core.QueueItem` (part_002).  The Go struct also carries `Index`,
the position inside the heap slice; in the list embedding the position
IS the list index, so the field is dropped. -/
structure QueueItem where
  Job : Job
  Priority : Int
  EnqueuedAt : Int
  AgingBoost : Int
deriving DecidableEq, Repr

/-- Placeholder item used to totalize out-of-range slice reads; the heap
code below only ever reads in range. -/
def dummyItem : QueueItem :=
  { Job := { ID := "", TenantID := "", State := JobState.pending, Priority := 0,
             GPUCount := 0, GPUMemoryMB := 0, CPUCores := 0, MemoryMB := 0,
             GangScheduling := false, SubmittedAt := 0, ScheduledAt := none,
             StartedAt := none, CompletedAt := none, PreemptedCount := 0 },
    Priority := 0, EnqueuedAt := 0, AgingBoost := 0 }

/-- The heap slice `PriorityQueue` of part_002. -/
abbrev PriorityQueue := List QueueItem

/-- Indexing into the heap slice (`pq[i]`). -/
def nth (pq : PriorityQueue) (i : Nat) : QueueItem :=
  pq.getD i dummyItem

/-- `PriorityQueue.Less` (part_002 lines 34-45) lifted to the two items
it compares: higher `Priority + AgingBoost` first, FIFO by `EnqueuedAt`
among ties. -/
def lessItem (a b : QueueItem) : Bool :=
  let totalPriorityI := a.Priority + a.AgingBoost
  let totalPriorityJ := b.Priority + b.AgingBoost
  if totalPriorityI ≠ totalPriorityJ then
    decide (totalPriorityI > totalPriorityJ)
  else
    decide (a.EnqueuedAt < b.EnqueuedAt)

/-- `PriorityQueue.Less` proper (index form used by container/heap). -/
def Less (pq : PriorityQueue) (i j : Nat) : Bool :=
  lessItem (nth pq i) (nth pq j)

/-- `PriorityQueue.Swap`. -/
def Swap (pq : PriorityQueue) (i j : Nat) : PriorityQueue :=
  (pq.set i (nth pq j)).set j (nth pq i)

/-- The `up` sift of Go's `container/heap` (the library the queue is
built on), fuel-indexed so the definition is structurally recursive;
`j` strictly decreases at every iteration, so `j` itself is enough fuel
(`heapUp` below instantiates it that way). -/
def heapUpFuel : Nat → PriorityQueue → Nat → PriorityQueue
  | 0, pq, _ => pq
  | fuel + 1, pq, j =>
    if j = 0 then pq
    else
      let i := (j - 1) / 2
      if Less pq j i then heapUpFuel fuel (Swap pq i j) i else pq

/-- `container/heap.up`. -/
def heapUp (pq : PriorityQueue) (j : Nat) : PriorityQueue :=
  heapUpFuel (j + 1) pq j

/-- The `down` sift of Go's `container/heap`, fuel-indexed: the hole
index `i` strictly increases and stays below `n`, so `n` iterations
always suffice. -/
def heapDownFuel : Nat → PriorityQueue → Nat → Nat → PriorityQueue
  | 0, pq, _, _ => pq
  | fuel + 1, pq, i, n =>
    let j1 := 2 * i + 1
    if j1 ≥ n then pq
    else
      let j2 := j1 + 1
      let j := if j2 < n && Less pq j2 j1 then j2 else j1
      if Less pq j i then heapDownFuel fuel (Swap pq i j) j n else pq

/-- `container/heap.down` (restricted to the array effect; the boolean
result Go also returns is only used by `Fix`/`Remove`, which the claims
do not touch). -/
def heapDown (pq : PriorityQueue) (i n : Nat) : PriorityQueue :=
  heapDownFuel n pq i n

/-- `container/heap.Push`: append (the interface `Push`), then sift up
from the last index. -/
def heapPush (pq : PriorityQueue) (x : QueueItem) : PriorityQueue :=
  heapUp (pq ++ [x]) pq.length

/-- `container/heap.Pop`: swap the root with the last slot, sift the new
root down inside the shortened bound, then remove and return the last
slot (the old root). -/
def heapPopArr (pq : PriorityQueue) : Option (QueueItem × PriorityQueue) :=
  match pq with
  | [] => none
  | _ :: _ =>
    let n := pq.length - 1
    let pq1 := heapDown (Swap pq 0 n) 0 n
    some (nth pq1 n, pq1.take n)

/-- `container/heap.Init`: `down` every index from `n/2 - 1` to `0`. -/
def heapInitFrom (pq : PriorityQueue) : Nat → PriorityQueue
  | 0 => pq
  | k + 1 => heapInitFrom (heapDown pq k pq.length) k

/-- `container/heap.Init` entry point. -/
def heapInit (pq : PriorityQueue) : PriorityQueue :=
  heapInitFrom pq (pq.length / 2)

/-- Errors produced by `Queue.Enqueue` (part_002). -/
inductive QueueError where
  | queueFull (maxSize : Nat)
  | jobAlreadyInQueue (jobID : String)
deriving DecidableEq, Repr

/-- `core.Queue` (part_002).  The Go struct also keeps `jobMap`, an
id-to-item map mirroring `items` exactly (every code path inserts and
deletes the two together); the embedding derives membership from
`items` instead of duplicating the state. -/
structure Queue where
  items : PriorityQueue
  maxSize : Nat
deriving DecidableEq, Repr

/-- `NewQueue`. -/
def NewQueue (maxSize : Nat) : Queue :=
  { items := [], maxSize := maxSize }

/-- `Queue.Enqueue` (part_002 lines 82-105): reject when at capacity or
when the job id is already present, otherwise push an item stamped
`EnqueuedAt = now` with zero boost. -/
def Queue.Enqueue (q : Queue) (job : Job) (now : Int) : Except QueueError Queue :=
  if q.items.length ≥ q.maxSize then
    Except.error (QueueError.queueFull q.maxSize)
  else if q.items.any (fun it => it.Job.ID == job.ID) then
    Except.error (QueueError.jobAlreadyInQueue job.ID)
  else
    let item : QueueItem :=
      { Job := job, Priority := job.Priority, EnqueuedAt := now, AgingBoost := 0 }
    Except.ok { q with items := heapPush q.items item }

/-- `Queue.Dequeue` (part_002 lines 108-120): `nil` when empty,
otherwise `heap.Pop`. -/
def Queue.Dequeue (q : Queue) : Option (Job × Queue) :=
  match heapPopArr q.items with
  | none => none
  | some (item, rest) => some (item.Job, { q with items := rest })

/-- `Queue.Peek`: the root of the heap without removal. -/
def Queue.Peek (q : Queue) : Option Job :=
  q.items.head?.map (fun it => it.Job)

/-- `Queue.IsEmpty`. -/
def Queue.IsEmpty (q : Queue) : Bool :=
  q.items.length == 0

/-- `Queue.ApplyAging` (part_002 lines 186-201): add `agingFactor` to
the boost of every item that has waited longer than `ageThreshold`,
then re-heapify with `heap.Init`. -/
def Queue.ApplyAging (q : Queue) (agingFactor : Int) (ageThreshold : Int) (now : Int) : Queue :=
  let items := q.items.map (fun it =>
    if now - it.EnqueuedAt > ageThreshold then
      { it with AgingBoost := it.AgingBoost + agingFactor }
    else it)
  { q with items := heapInit items }

/-- Errors of the allocator, from pkg/utils (part_003): the two named
errors the allocator can return.  Repository write errors are assumed
absent in the embedding. -/
inductive AllocError where
  | insufficientResources
  | gangSchedulingFailed
deriving DecidableEq, Repr

/-- `utils.IsResourceError` (part_003): only `ErrInsufficientResources`
matches; a gang-scheduling failure is NOT a resource error. -/
def IsResourceError : AllocError → Bool
  | AllocError.insufficientResources => true
  | AllocError.gangSchedulingFailed => false

/-- A failed `models.AllocationResult`. -/
def failResult (msg : String) : AllocationResult :=
  { Success := false, AllocationID := "", GPUIDs := [], NodeID := "", Message := msg }

/-- `generateAllocationID` (allocator.go): derived from the clock. -/
def generateAllocationID (now : Int) : String :=
  "alloc-" ++ toString now

/-- `Allocator.createAllocation` (allocator.go lines 140-198): persist
an Active allocation for the selected GPUs, mark every GPU allocated,
then decrement the node's availability counters. -/
def createAllocation (w : World) (request : AllocationRequest) (node : Node)
    (gpus : List GPU) (now : Int) : World × AllocationResult :=
  let gpuIDs := gpus.map (fun g => g.ID)
  let allocation : Allocation :=
    { ID := generateAllocationID now, JobID := request.JobID,
      TenantID := request.TenantID, State := AllocationState.active,
      GPUIDs := gpuIDs, NodeID := node.ID, CPUCores := request.CPUCores,
      MemoryMB := request.MemoryMB, AllocatedAt := now, ActualDuration := 0,
      PreemptedAt := none, PreemptedBy := "", PreemptionReason := "",
      CompletedAt := none }
  let w1 := createAllocationRow w allocation
  let w2 := gpus.foldl (fun acc g =>
    updateGPU acc { g with Allocated := true, AllocationID := allocation.ID,
                           JobID := request.JobID, TenantID := request.TenantID }) w1
  let node1 :=
    { node with AvailableGPUs := node.AvailableGPUs - (gpus.length : Int),
                AvailableCPUCores := node.AvailableCPUCores - request.CPUCores,
                AvailableMemoryMB := node.AvailableMemoryMB - request.MemoryMB }
  let w3 := updateNode w2 node1
  (w3, { Success := true, AllocationID := allocation.ID, GPUIDs := gpuIDs,
         NodeID := node.ID, Message := "" })

/-- The inner collection loop of `gangSchedule`: walk the node's GPUs in
store order, keep the available ones, and break as soon as `GPUCount`
have been gathered. -/
def collectAvailGPUs (now : Int) (count : Int) : List GPU → List GPU → List GPU
  | acc, [] => acc
  | acc, g :: rest =>
    if g.IsAvailable now then
      let acc1 := acc ++ [g]
      if (acc1.length : Int) = count then acc1 else collectAvailGPUs now count acc1 rest
    else collectAvailGPUs now count acc rest

/-- `Allocator.gangSchedule` (allocator.go lines 106-137): scan the
filtered nodes in order; on the first node whose `AvailableGPUs`
counter covers the request and which actually yields `GPUCount`
available GPUs, commit via `createAllocation`; otherwise fail with
`ErrGangSchedulingFailed` and change nothing. -/
def gangSchedule (w : World) (request : AllocationRequest) (nodes : List Node)
    (now : Int) : World × AllocationResult × Option AllocError :=
  match nodes with
  | [] =>
    (w, failResult "gang scheduling failed - insufficient resources on single node",
     some AllocError.gangSchedulingFailed)
  | node :: rest =>
    if node.AvailableGPUs ≥ request.GPUCount then
      let gpus := listGPUsByNode w node.ID
      let availGPUs := collectAvailGPUs now request.GPUCount [] gpus
      if (availGPUs.length : Int) = request.GPUCount then
        let (w1, result) := createAllocation w request node availGPUs now
        (w1, result, none)
      else gangSchedule w request rest now
    else gangSchedule w request rest now

/-- The scan loop of `bestFitSchedule`: track the node with the least
waste `availableGPUs - requested`, starting from the sentinel 999999,
keeping the first minimum. -/
def bestFitLoop (w : World) (request : AllocationRequest) (now : Int) :
    List Node → Int → Option (Node × List GPU) → Option (Node × List GPU)
  | [], _, best => best
  | node :: rest, minWaste, best =>
    let availGPUs := (listGPUsByNode w node.ID).filter (fun g => g.IsAvailable now)
    if (availGPUs.length : Int) ≥ request.GPUCount then
      let waste := (availGPUs.length : Int) - request.GPUCount
      if waste < minWaste then
        bestFitLoop w request now rest waste (some (node, availGPUs.take request.GPUCount.toNat))
      else bestFitLoop w request now rest minWaste best
    else bestFitLoop w request now rest minWaste best

/-- `Allocator.bestFitSchedule` (allocator.go lines 63-103). -/
def bestFitSchedule (w : World) (request : AllocationRequest) (nodes : List Node)
    (now : Int) : World × AllocationResult × Option AllocError :=
  match bestFitLoop w request now nodes 999999 none with
  | none => (w, failResult "no suitable node found", some AllocError.insufficientResources)
  | some (node, gpus) =>
    let (w1, result) := createAllocation w request node gpus now
    (w1, result, none)

/-- `Allocator.Allocate` (allocator.go lines 27-60): filter schedulable
nodes by coarse capacity, fail with `ErrInsufficientResources` when
none remain, then dispatch to gang or best-fit scheduling. -/
def Allocate (w : World) (request : AllocationRequest) (now : Int) :
    World × AllocationResult × Option AllocError :=
  let nodes := listNodes w
  let availableNodes := nodes.filter (fun n =>
    n.HasCapacity request.GPUCount request.CPUCores request.MemoryMB)
  if availableNodes.length = 0 then
    (w, failResult "no nodes with sufficient capacity", some AllocError.insufficientResources)
  else if request.GangScheduling then gangSchedule w request availableNodes now
  else bestFitSchedule w request availableNodes now

/-- `Allocator.Free` (allocator.go lines 201-252): mark the allocation
Completed (stamping `CompletedAt` and recomputing the duration), unbind
every GPU it lists, then add the released amounts back to the node's
availability counters.  The boolean is `true` when no repository error
occurred (allocation and node found). -/
def Free (w : World) (allocationID : String) (now : Int) : World × Bool :=
  match getAllocation w allocationID with
  | none => (w, false)
  | some allocation =>
    let a1 := Allocation.CalculateDuration
      { allocation with State := AllocationState.completed, CompletedAt := some now }
    let w1 := updateAllocation w a1
    let w2 := allocation.GPUIDs.foldl (fun acc gpuID =>
      match getGPU acc gpuID with
      | none => acc
      | some gpu =>
        updateGPU acc { gpu with Allocated := false, AllocationID := "",
                                 JobID := "", TenantID := "" }) w1
    match getNode w2 allocation.NodeID with
    | none => (w2, false)
    | some node =>
      let node1 :=
        { node with AvailableGPUs := node.AvailableGPUs + (allocation.GPUIDs.length : Int),
                    AvailableCPUCores := node.AvailableCPUCores + allocation.CPUCores,
                    AvailableMemoryMB := node.AvailableMemoryMB + allocation.MemoryMB }
      (updateNode w2 node1, true)

/-- The candidate test inside `Preemptor.SelectVictims` (part_001
lines 293-305): strictly lower priority than the requester, and a
tenant (found in the store) with `AllowPreemption`. -/
def isPreemptionCandidate (w : World) (requestingJob : Job) (job : Job) : Bool :=
  decide (job.Priority < requestingJob.Priority) &&
  (match getTenant w job.TenantID with
   | some tenant => tenant.AllowPreemption
   | none => false)

/-- `Preemptor.SelectVictims` (part_001 lines 283-328): among Running
jobs, keep the candidates; the selection loop then keeps the first
candidate whose priority goes strictly below the running minimum,
seeded with 999999. -/
def SelectVictims (w : World) (requestingJob : Job) : List Job :=
  let runningJobs := listJobsByState w JobState.running
  let candidates := runningJobs.filter (isPreemptionCandidate w requestingJob)
  let sel := candidates.foldl
    (fun acc c => if c.Priority < acc.1 then (c.Priority, some c) else acc)
    ((999999 : Int), (none : Option Job))
  match sel.2 with
  | some victim => [victim]
  | none => []

/-- `Preemptor.Preempt` (part_001 lines 331-401): mark the victim
Preempted and bump its `PreemptedCount`; then for EVERY allocation of
the victim: mark it Preempted (stamping `PreemptedAt`, `PreemptedBy`
and the reason), unbind its GPUs, and add the released amounts back to
the node's counters.  Missing GPU or node rows are skipped, as in the
Go code.  Note the function never touches the victim's tenant. -/
def Preempt (w : World) (victim : Job) (preemptorID : String) (now : Int) : World :=
  let victim1 := { victim with State := JobState.preempted,
                               PreemptedCount := victim.PreemptedCount + 1 }
  let w1 := updateJob w victim1
  let allocations := getJobAllocations w1 victim.ID
  allocations.foldl (fun acc alloc =>
    let alloc1 := { alloc with State := AllocationState.preempted,
                               PreemptedAt := some now, PreemptedBy := preemptorID,
                               PreemptionReason := "higher priority job" }
    let acc1 := updateAllocation acc alloc1
    let acc2 := alloc.GPUIDs.foldl (fun a gpuID =>
      match getGPU a gpuID with
      | none => a
      | some gpu =>
        updateGPU a { gpu with Allocated := false, AllocationID := "",
                               JobID := "", TenantID := "" }) acc1
    match getNode acc2 alloc.NodeID with
    | none => acc2
    | some node =>
      let node1 :=
        { node with AvailableGPUs := node.AvailableGPUs + (alloc.GPUIDs.length : Int),
                    AvailableCPUCores := node.AvailableCPUCores + alloc.CPUCores,
                    AvailableMemoryMB := node.AvailableMemoryMB + alloc.MemoryMB }
      updateNode acc2 node1) w1

/-- The scheduler configuration fields the core reads
(`utils.SchedulerConfig`). -/
structure SchedulerConfig where
  SchedulingInterval : Int
  MaxQueueSize : Nat
  EnablePreemption : Bool
  EnableGangScheduling : Bool
  EnableThermalAware : Bool
  ThermalThreshold : Int
  DefaultPriority : Int
deriving DecidableEq, Repr

/-- Errors surfaced by `Scheduler.SubmitJob`. -/
inductive SubmitError where
  | validation (reason : String)
  | tenantNotFound
  | quotaExceeded (tenantID resource : String) (requested quota current : Int)
  | enqueueFailed (e : QueueError)
deriving DecidableEq, Repr

/-- `Scheduler.validateJob` (scheduler.go lines 366-377). -/
def validateJob (job : Job) : Option String :=
  if job.GPUCount ≤ 0 then some "GPU count must be positive"
  else if job.GPUCount > 8 then some "GPU count cannot exceed 8"
  else if job.TenantID = "" then some "tenant ID is required"
  else none

/-- `Scheduler.SubmitJob` (scheduler.go lines 100-143): validate, load
the tenant, check `HasAvailableQuota` (failing with a quota-exceeded
error that always names the GPUs dimension), stamp the job Pending with
`SubmittedAt = now`, persist it, then enqueue.  The returned world
carries whatever was persisted before a failure - an enqueue failure
leaves the job in the store. -/
def SubmitJob (w : World) (q : Queue) (job : Job) (now : Int) :
    World × Queue × Option SubmitError :=
  match validateJob job with
  | some reason => (w, q, some (SubmitError.validation reason))
  | none =>
    match getTenant w job.TenantID with
    | none => (w, q, some SubmitError.tenantNotFound)
    | some tenant =>
      if !(tenant.HasAvailableQuota job.GPUCount job.GPUMemoryMB job.CPUCores job.MemoryMB) then
        (w, q, some (SubmitError.quotaExceeded tenant.ID "GPUs" job.GPUCount
                     tenant.MaxGPUs tenant.CurrentGPUs))
      else
        let job1 := { job with State := JobState.pending, SubmittedAt := now }
        let w1 := createJob w job1
        match q.Enqueue job1 now with
        | Except.error e => (w1, q, some (SubmitError.enqueueFailed e))
        | Except.ok q1 => (w1, q1, none)

/-- `Scheduler.startJob` (scheduler.go lines 284-310): move the job to
Running (stamping `ScheduledAt` and `StartedAt`), then charge the
tenant's usage.  The boolean is `false` when the tenant row is missing
(the job is then already Running but uncharged, as in the Go code). -/
def startJob (w : World) (job : Job) (now : Int) : World × Bool :=
  let job1 := { job with State := JobState.running,
                         ScheduledAt := some now, StartedAt := some now }
  let w1 := updateJob w job1
  match getTenant w1 job.TenantID with
  | none => (w1, false)
  | some tenant =>
    (updateTenant w1 (tenant.UpdateUsage job.GPUCount job.GPUMemoryMB
                      job.CPUCores job.MemoryMB 1), true)

/-- `Scheduler.tryAllocateJob` (scheduler.go lines 264-281). -/
def tryAllocateJob (w : World) (job : Job) (now : Int) : World × Bool × Option AllocError :=
  let request : AllocationRequest :=
    { JobID := job.ID, TenantID := job.TenantID, GPUCount := job.GPUCount,
      GPUMemoryMB := job.GPUMemoryMB, CPUCores := job.CPUCores,
      MemoryMB := job.MemoryMB, GangScheduling := job.GangScheduling }
  let (w1, result, err) := Allocate w request now
  match err with
  | some e => (w1, false, some e)
  | none => (w1, result.Success, none)

/-- `Scheduler.tryPreemption` (scheduler.go lines 313-338): no-op when
preemption is disabled; otherwise preempt every selected victim (the
selector returns at most one) and report whether any was taken. -/
def tryPreemption (w : World) (cfg : SchedulerConfig) (job : Job) (now : Int) :
    World × Bool :=
  if !cfg.EnablePreemption then (w, false)
  else
    match SelectVictims w job with
    | [] => (w, false)
    | victims =>
      (victims.foldl (fun acc v => Preempt acc v job.ID now) w, true)

/-- The `for !queue.IsEmpty()` loop of `Scheduler.schedulingCycle`
(scheduler.go lines 219-258), fuel-indexed.  Returns the final world,
the final queue and the ids of the jobs transitioned to Running, in
order.  On an allocation error the loop preempts and retries the same
head (when enabled and a victim was taken) or stops; on success it
dequeues the head and starts it. -/
def cycleLoop (cfg : SchedulerConfig) (now : Int) :
    Nat → World → Queue → List String → World × Queue × List String
  | 0, w, q, started => (w, q, started)
  | fuel + 1, w, q, started =>
    if q.IsEmpty then (w, q, started)
    else
      match q.Peek with
      | none => (w, q, started)
      | some job =>
        let (w1, allocated, err) := tryAllocateJob w job now
        match err with
        | some e =>
          if cfg.EnablePreemption && IsResourceError e then
            let (w2, preempted) := tryPreemption w1 cfg job now
            if preempted then cycleLoop cfg now fuel w2 q started
            else (w2, q, started)
          else (w1, q, started)
        | none =>
          if allocated then
            let q1 := match q.Dequeue with
              | none => q
              | some (_, q2) => q2
            let (w2, _) := startJob w1 job now
            cycleLoop cfg now fuel w2 q1 (started ++ [job.ID])
          else (w1, q, started)

/-- `Scheduler.schedulingCycle` (scheduler.go lines 214-261): age the
queue with `ApplyAging(10, 5*time.Minute)`, then run the loop.
`5*time.Minute` is 300000000000 nanoseconds. -/
def schedulingCycle (cfg : SchedulerConfig) (w : World) (q : Queue) (now : Int)
    (fuel : Nat) : World × Queue × List String :=
  let q1 := q.ApplyAging 10 300000000000 now
  cycleLoop cfg now fuel w q1 []

/-- The enqueue sequence of `loadPendingJobs`: each `Enqueue` call reads
`time.Now()`; consecutive reads are modelled as strictly increasing
stamps `t, t+1, ...`.  Enqueue failures are logged and skipped. -/
def enqueueSeq (q : Queue) (t : Int) : List Job → Queue
  | [] => q
  | job :: rest =>
    match q.Enqueue job t with
    | Except.ok q1 => enqueueSeq q1 (t + 1) rest
    | Except.error _ => enqueueSeq q (t + 1) rest

/-- `Scheduler.loadPendingJobs` (scheduler.go lines 380-396): enqueue
every job `ListJobsByState` returns for Pending, in the order the store
returns them. -/
def loadPendingJobs (w : World) (q : Queue) (t0 : Int) : Queue :=
  enqueueSeq q t0 (listJobsByState w JobState.pending)

/-- Effective priority of a queued item: declared priority plus aging
boost (the key `PriorityQueue.Less` compares first). -/
def eff (it : QueueItem) : Int :=
  it.Priority + it.AgingBoost

/-- The binary-heap shape invariant on the first `n` slots: no child
sorts strictly before its parent. -/
def HeapInvN (pq : PriorityQueue) (n : Nat) : Prop :=
  ∀ k, 0 < k → k < n → lessItem (nth pq k) (nth pq ((k - 1) / 2)) = false

/-- The heap invariant on the whole slice. -/
def HeapInv (pq : PriorityQueue) : Prop :=
  HeapInvN pq pq.length

/-- Loop invariant of the `up` sift: the slice is a heap except
possibly at the edge from `j` to its parent, and `j`'s children (when
any) are already dominated by `j`'s parent. -/
def UpInv (pq : PriorityQueue) (j : Nat) : Prop :=
  (∀ k, 0 < k → k < pq.length → k ≠ j →
    lessItem (nth pq k) (nth pq ((k - 1) / 2)) = false) ∧
  (∀ c, c < pq.length → (c = 2 * j + 1 ∨ c = 2 * j + 2) → 0 < j →
    lessItem (nth pq c) (nth pq ((j - 1) / 2)) = false)

/-- Loop invariant of the `down` sift within bound `n`: the slice is a
heap except possibly at the edges from the hole `i` to its children,
and when the hole is not the root its parent already dominates the
hole's children. -/
def DownInv (pq : PriorityQueue) (n i : Nat) : Prop :=
  (∀ k, 0 < k → k < n → (k - 1) / 2 ≠ i →
    lessItem (nth pq k) (nth pq ((k - 1) / 2)) = false) ∧
  (0 < i → ∀ c, c < n → (c = 2 * i + 1 ∨ c = 2 * i + 2) →
    lessItem (nth pq c) (nth pq ((i - 1) / 2)) = false)

/-- Repeated `Dequeue` at the heap level: pop until empty (the fuel is
instantiated with the slice length). -/
def drainAux : Nat → PriorityQueue → List QueueItem
  | 0, _ => []
  | fuel + 1, pq =>
    match heapPopArr pq with
    | none => []
    | some (r, rest) => r :: drainAux fuel rest

/-- Every item of the queue, in dequeue order. -/
def drainQueue (pq : PriorityQueue) : List QueueItem :=
  drainAux pq.length pq

/-- A sequence of `Enqueue` calls with explicit clock readings; failed
enqueues leave the queue unchanged, as in the Go code. -/
def enqueuePairs (q : Queue) : List (Job × Int) → Queue
  | [] => q
  | (job, t) :: rest =>
    match q.Enqueue job t with
    | Except.ok q1 => enqueuePairs q1 rest
    | Except.error _ => enqueuePairs q rest

/-- The items a run of `enqueueSeq` would build, in call order: job
`i` of the list is stamped `EnqueuedAt = t + i` with zero boost. -/
def stampSeq : List Job → Int → List QueueItem
  | [], _ => []
  | job :: rest, t =>
    ({ Job := job, Priority := job.Priority, EnqueuedAt := t, AgingBoost := 0 }) ::
      stampSeq rest (t + 1)

/-! Concrete fixtures used by witnesses and counterexamples. -/

/-- A baseline job; fixtures below derive from it by record update. -/
def baseJob : Job :=
  { ID := "job-1", TenantID := "t1", State := JobState.pending, Priority := 100,
    GPUCount := 1, GPUMemoryMB := 1000, CPUCores := 2, MemoryMB := 2048,
    GangScheduling := false, SubmittedAt := 0, ScheduledAt := none,
    StartedAt := none, CompletedAt := none, PreemptedCount := 0 }

/-- A baseline tenant with room for two GPUs. -/
def baseTenant : Tenant :=
  { ID := "t1", MaxGPUs := 2, MaxGPUMemoryMB := 100000, MaxCPUCores := 64,
    MaxMemoryMB := 200000, MaxConcurrentJobs := 10, CurrentGPUs := 0,
    CurrentGPUMemory := 0, CurrentCPUCores := 0, CurrentMemory := 0,
    CurrentJobs := 0, AllowPreemption := true }

/-- A baseline healthy unallocated GPU on node n1. -/
def baseGPU : GPU :=
  { ID := "g1", NodeID := "n1", Allocated := false, AllocationID := "",
    JobID := "", TenantID := "", CoolingPeriod := 0, ThermalThrottle := false,
    Health := GPUHealth.healthy }

/-- A baseline schedulable node with four GPUs. -/
def baseNode : Node :=
  { ID := "n1", TotalGPUs := 4, AvailableGPUs := 4, TotalCPUCores := 32,
    AvailableCPUCores := 32, TotalMemoryMB := 131072, AvailableMemoryMB := 131072,
    Online := true, Schedulable := true, DrainingMode := false }

/-- A baseline active allocation of g1 on n1 for job-1. -/
def baseAllocation : Allocation :=
  { ID := "alloc-1", JobID := "job-1", TenantID := "t1",
    State := AllocationState.active, GPUIDs := ["g1"], NodeID := "n1",
    CPUCores := 2, MemoryMB := 2048, AllocatedAt := 0, ActualDuration := 0,
    PreemptedAt := none, PreemptedBy := "", PreemptionReason := "",
    CompletedAt := none }

/-- World for the C1 witness: one tenant, no hardware. -/
def wC1 : World :=
  { jobs := [], tenants := [baseTenant], gpus := [], nodes := [], allocations := [] }

/-- The Active allocation row `createAllocation` persists (step 1 of
the commit). -/
def allocationOf (request : AllocationRequest) (node : Node) (gpus : List GPU)
    (now : Int) : Allocation :=
  { ID := generateAllocationID now, JobID := request.JobID,
    TenantID := request.TenantID, State := AllocationState.active,
    GPUIDs := gpus.map (fun g => g.ID), NodeID := node.ID,
    CPUCores := request.CPUCores, MemoryMB := request.MemoryMB,
    AllocatedAt := now, ActualDuration := 0, PreemptedAt := none,
    PreemptedBy := "", PreemptionReason := "", CompletedAt := none }

/-- How `createAllocation` re-writes each selected GPU (step 2 of the
commit). -/
def boundGPU (request : AllocationRequest) (now : Int) (g : GPU) : GPU :=
  { g with Allocated := true, AllocationID := generateAllocationID now,
           JobID := request.JobID, TenantID := request.TenantID }

/-- How `createAllocation` re-writes the chosen node (step 3 of the
commit). -/
def decrementedNode (request : AllocationRequest) (gpus : List GPU) (node : Node) : Node :=
  { node with AvailableGPUs := node.AvailableGPUs - (gpus.length : Int),
              AvailableCPUCores := node.AvailableCPUCores - request.CPUCores,
              AvailableMemoryMB := node.AvailableMemoryMB - request.MemoryMB }

/-- A second healthy GPU on node n1. -/
def gpu2 : GPU := { baseGPU with ID := "g2" }

/-- The node used by the gang-scheduling witness: two GPUs. -/
def nodeC4 : Node := { baseNode with TotalGPUs := 2, AvailableGPUs := 2 }

/-- World for the C4 witness: one node with two free GPUs. -/
def wC4 : World :=
  { jobs := [], tenants := [baseTenant], gpus := [baseGPU, gpu2],
    nodes := [nodeC4], allocations := [] }

/-- A two-GPU gang request. -/
def reqC4 : AllocationRequest :=
  { JobID := "job-1", TenantID := "t1", GPUCount := 2, GPUMemoryMB := 1000,
    CPUCores := 2, MemoryMB := 2048, GangScheduling := true }

/-- A thermally throttled but otherwise pristine GPU. -/
def gpuThr : GPU := { baseGPU with ThermalThrottle := true }

/-- A configuration with thermal awareness switched off. -/
def cfgThermalOff : SchedulerConfig :=
  { SchedulingInterval := 1000, MaxQueueSize := 100, EnablePreemption := true,
    EnableGangScheduling := true, EnableThermalAware := false,
    ThermalThreshold := 75, DefaultPriority := 100 }

/-- World for the C9 counterexample: one node whose only GPU is
thermally throttled (the node counter still reports one free GPU). -/
def wC9 : World :=
  { jobs := [], tenants := [baseTenant], gpus := [gpuThr],
    nodes := [{ baseNode with TotalGPUs := 1, AvailableGPUs := 1 }],
    allocations := [] }

/-- A one-GPU best-fit (non-gang) request. -/
def reqC9 : AllocationRequest :=
  { JobID := "job-1", TenantID := "t1", GPUCount := 1, GPUMemoryMB := 1000,
    CPUCores := 2, MemoryMB := 2048, GangScheduling := false }

/-- How `Free` re-writes the allocation row: Completed, `CompletedAt`
stamped, duration recomputed. -/
def releasedAllocation (a : Allocation) (t : Int) : Allocation :=
  { a with State := AllocationState.completed, CompletedAt := some t,
           ActualDuration := t - a.AllocatedAt }

/-- How `Free` re-writes the node row: the released amounts are added
back to the availability counters. -/
def incrementedNode (a : Allocation) (n : Node) : Node :=
  { n with AvailableGPUs := n.AvailableGPUs + (a.GPUIDs.length : Int),
           AvailableCPUCores := n.AvailableCPUCores + a.CPUCores,
           AvailableMemoryMB := n.AvailableMemoryMB + a.MemoryMB }

/-- The GPU row of the C5 counterexample: bound to alloc-1. -/
def gpuC5 : GPU :=
  { baseGPU with Allocated := true, AllocationID := "alloc-1",
                 JobID := "job-1", TenantID := "t1" }

/-- World for the C5 counterexample: alloc-1 active on n1 (3 of 4 GPUs
reported free). -/
def wC5 : World :=
  { jobs := [], tenants := [baseTenant], gpus := [gpuC5],
    nodes := [{ baseNode with AvailableGPUs := 3 }],
    allocations := [baseAllocation] }

/-- How `Preempt` re-writes the victim job row: Preempted, count
bumped. -/
def preemptedJob (j : Job) : Job :=
  { j with State := JobState.preempted, PreemptedCount := j.PreemptedCount + 1 }

/-- How `Preempt` re-writes each allocation row of the victim. -/
def preemptedAllocation (a : Allocation) (preemptorID : String) (now : Int) : Allocation :=
  { a with State := AllocationState.preempted, PreemptedAt := some now,
           PreemptedBy := preemptorID, PreemptionReason := "higher priority job" }

/-- How `Preempt` (and `Free`) clear a released GPU row. -/
def unboundGPU (g : GPU) : GPU :=
  { g with Allocated := false, AllocationID := "", JobID := "", TenantID := "" }

/-- The running victim of the C3 counterexample: priority 50, started
at time 5, one GPU. -/
def victimC3 : Job :=
  { baseJob with State := JobState.running, Priority := 50,
                 StartedAt := some 5 }

/-- The tenant of the victim, whose usage currently reflects the
running job (1 GPU, 1000 MB GPU memory, 2 cores, 2048 MB, 1 job). -/
def tenantC3 : Tenant :=
  { baseTenant with CurrentGPUs := 1, CurrentGPUMemory := 1000,
                    CurrentCPUCores := 2, CurrentMemory := 2048,
                    CurrentJobs := 1 }

/-- World for C3: the running victim, its tenant with live usage, its
active allocation alloc-1 binding g1 on n1. -/
def wC3 : World :=
  { jobs := [victimC3], tenants := [tenantC3], gpus := [gpuC5],
    nodes := [{ baseNode with AvailableGPUs := 3 }],
    allocations := [baseAllocation] }

/-- The per-allocation body of the `Preempt` loop (part_001 lines
351-397): stamp the allocation Preempted, unbind each of its GPUs
(missing rows skipped), then add the released amounts back to its node
(missing node skipped).  `Preempt` is definitionally this step folded
over the victim allocations. -/
def preemptStep (preemptorID : String) (now : Int) (acc : World) (alloc : Allocation) : World :=
  let acc2 := alloc.GPUIDs.foldl (fun a gpuID =>
    match getGPU a gpuID with
    | none => a
    | some gpu => updateGPU a (unboundGPU gpu))
    (updateAllocation acc (preemptedAllocation alloc preemptorID now))
  match getNode acc2 alloc.NodeID with
  | none => acc2
  | some node => updateNode acc2 (incrementedNode alloc node)

/-- The effect of one allocation's GPU-unbinding loop on the gpus
table alone. -/
def unbindList (ids : List String) (l : List GPU) : List GPU :=
  ids.foldl (fun l2 gid =>
    match l2.find? (fun x => x.ID == gid) with
    | none => l2
    | some g => l2.map (fun x => if x.ID == (unboundGPU g).ID then unboundGPU g else x)) l

/-- The effect of the `Preempt` loop on the allocations table alone. -/
def preemptAllocList (preemptorID : String) (now : Int) (allocs : List Allocation)
    (l : List Allocation) : List Allocation :=
  allocs.foldl (fun l2 a =>
    l2.map (fun x => if x.ID == (preemptedAllocation a preemptorID now).ID
      then preemptedAllocation a preemptorID now else x)) l

/-- The effect of the `Preempt` loop on the gpus table alone. -/
def preemptGPUList (allocs : List Allocation) (l : List GPU) : List GPU :=
  allocs.foldl (fun l2 a => unbindList a.GPUIDs l2) l

/-- The effect of the `Preempt` loop on the nodes table alone. -/
def preemptNodeList (allocs : List Allocation) (l : List Node) : List Node :=
  allocs.foldl (fun l2 a =>
    match l2.find? (fun x => x.ID == a.NodeID) with
    | none => l2
    | some n => l2.map (fun x => if x.ID == (incrementedNode a n).ID
      then incrementedNode a n else x)) l

/-- A second GPU on n1, bound to a second allocation of the victim. -/
def gpuB : GPU := { gpuC5 with ID := "g2", AllocationID := "alloc-2" }

/-- A second active allocation of the victim, binding g2 on n1. -/
def allocB : Allocation := { baseAllocation with ID := "alloc-2", GPUIDs := ["g2"] }

/-- World for the C3 witness: the victim holds TWO allocations, each
binding one GPU on the same node n1 (2 of 4 GPUs reported free). -/
def wC3b : World :=
  { jobs := [victimC3], tenants := [tenantC3], gpus := [gpuC5, gpuB],
    nodes := [{ baseNode with AvailableGPUs := 2 }],
    allocations := [baseAllocation, allocB] }

/-- A running job that started LATE (time 50), listed first by the
store. -/
def jobLateC6 : Job :=
  { baseJob with ID := "job-late", State := JobState.running, Priority := 10,
                 StartedAt := some 50 }

/-- A running job of the same priority that started EARLY (time 5),
listed second. -/
def jobEarlyC6 : Job :=
  { baseJob with ID := "job-early", State := JobState.running, Priority := 10,
                 StartedAt := some 5 }

/-- The higher-priority job requesting preemption. -/
def requesterC6 : Job := { baseJob with ID := "job-req", Priority := 100 }

/-- World for C6: two equal-priority running victims of a
preemptible tenant, the later-started one enumerated first. -/
def wC6 : World :=
  { jobs := [jobLateC6, jobEarlyC6], tenants := [baseTenant], gpus := [],
    nodes := [], allocations := [] }

/-- A configuration with preemption disabled, for the head-of-line
witness. -/
def cfgC7 : SchedulerConfig :=
  { SchedulingInterval := 1000, MaxQueueSize := 100, EnablePreemption := false,
    EnableGangScheduling := true, EnableThermalAware := true,
    ThermalThreshold := 75, DefaultPriority := 100 }

/-- A queue holding the single head job `baseJob`. -/
def qC7 : Queue :=
  { items := [{ Job := baseJob, Priority := 100, EnqueuedAt := 0, AgingBoost := 0 }],
    maxSize := 100 }

/-- World for C7: no nodes at all, so the head can never be
allocated. -/
def wC7 : World :=
  { jobs := [baseJob], tenants := [baseTenant], gpus := [], nodes := [],
    allocations := [] }

/-- A pending job submitted at time 10, listed SECOND by the store. -/
def jobS1 : Job := { baseJob with ID := "job-s1", SubmittedAt := 10 }

/-- A pending job submitted at time 20, listed FIRST by the store. -/
def jobS2 : Job := { baseJob with ID := "job-s2", SubmittedAt := 20 }

/-- World for C8: the store returns the pending backlog in an order
that is NOT submitted_at-ascending. -/
def wC8 : World :=
  { jobs := [jobS2, jobS1], tenants := [baseTenant], gpus := [], nodes := [],
    allocations := [] }

/-! The development below settles the claims: first general lemmas
about the heap code, then one theorem per claim. -/

theorem nth_cons_zero (a : QueueItem) (l : PriorityQueue) : nth (a :: l) 0 = a := by
  simp [nth]

theorem nth_cons_succ (a : QueueItem) (l : PriorityQueue) (k : Nat) :
    nth (a :: l) (k + 1) = nth l k := by
  simp [nth]

theorem nth_set_self (l : PriorityQueue) (i : Nat) (x : QueueItem) (h : i < l.length) :
    nth (l.set i x) i = x := by
  simp [nth, List.getD_eq_getElem?_getD, List.getElem?_set, h]

theorem nth_set_ne (l : PriorityQueue) (i k : Nat) (x : QueueItem) (h : i ≠ k) :
    nth (l.set i x) k = nth l k := by
  simp [nth, List.getD_eq_getElem?_getD, List.getElem?_set, h]

theorem nth_append_left (l l2 : PriorityQueue) (i : Nat) (h : i < l.length) :
    nth (l ++ l2) i = nth l i := by
  simp [nth, List.getD_eq_getElem?_getD, List.getElem?_append, h]

theorem nth_take (l : PriorityQueue) (n k : Nat) (h : k < n) :
    nth (l.take n) k = nth l k := by
  simp [nth, List.getD_eq_getElem?_getD, List.getElem?_take, h]

theorem set_nth_self (l : PriorityQueue) (i : Nat) (h : i < l.length) :
    l.set i (nth l i) = l := by
  induction l generalizing i with
  | nil => simp at h
  | cons a t ih =>
    cases i with
    | zero => simp [nth]
    | succ k =>
      simp only [nth_cons_succ, List.set_cons_succ]
      simp only [List.length_cons] at h
      rw [ih k (by omega)]

theorem length_Swap (pq : PriorityQueue) (i j : Nat) :
    (Swap pq i j).length = pq.length := by
  simp [Swap]

theorem nth_Swap_fst (pq : PriorityQueue) (i j : Nat) (hi : i < pq.length)
    (hj : j < pq.length) : nth (Swap pq i j) i = nth pq j := by
  by_cases hij : i = j
  · subst hij
    rw [Swap, List.set_set, nth_set_self _ _ _ hi]
  · rw [Swap, nth_set_ne _ _ _ _ (fun h => hij h.symm), nth_set_self _ _ _ hi]

theorem nth_Swap_snd (pq : PriorityQueue) (i j : Nat) (hj : j < pq.length) :
    nth (Swap pq i j) j = nth pq i := by
  rw [Swap, nth_set_self]
  simpa using hj

theorem nth_Swap_other (pq : PriorityQueue) (i j k : Nat) (hki : k ≠ i) (hkj : k ≠ j) :
    nth (Swap pq i j) k = nth pq k := by
  rw [Swap, nth_set_ne _ _ _ _ (fun h => hkj h.symm), nth_set_ne _ _ _ _ (fun h => hki h.symm)]

theorem lessItem_true_iff (a b : QueueItem) :
    lessItem a b = true ↔ (eff b < eff a ∨ (eff a = eff b ∧ a.EnqueuedAt < b.EnqueuedAt)) := by
  unfold lessItem eff
  simp only []
  split <;> simp <;> omega

theorem lessItem_false_iff (a b : QueueItem) :
    lessItem a b = false ↔ (eff a < eff b ∨ (eff a = eff b ∧ b.EnqueuedAt ≤ a.EnqueuedAt)) := by
  have h := lessItem_true_iff a b
  cases hl : lessItem a b with
  | true => simp [hl] at h ⊢; omega
  | false => simp [hl] at h ⊢; omega

theorem lessItem_self (a : QueueItem) : lessItem a a = false := by
  rw [lessItem_false_iff]; omega

theorem notLess_trans {a b c : QueueItem} (h1 : lessItem a b = false)
    (h2 : lessItem b c = false) : lessItem a c = false := by
  rw [lessItem_false_iff] at h1 h2 ⊢; omega

theorem lessItem_asymm {a b : QueueItem} (h : lessItem a b = true) :
    lessItem b a = false := by
  rw [lessItem_true_iff] at h; rw [lessItem_false_iff]; omega

theorem notLess_of_notLess_of_less {x y i : QueueItem} (h1 : lessItem x i = false)
    (h2 : lessItem y i = true) : lessItem x y = false := by
  rw [lessItem_false_iff] at h1 ⊢; rw [lessItem_true_iff] at h2; omega

theorem notLess_of_less_of_notLess {a b c : QueueItem} (h1 : lessItem a b = true)
    (h2 : lessItem a c = false) : lessItem b c = false := by
  rw [lessItem_true_iff] at h1; rw [lessItem_false_iff] at h2 ⊢; omega

theorem cons_set_perm (t : PriorityQueue) (m : Nat) (a : QueueItem) (h : m < t.length) :
    (nth t m :: t.set m a).Perm (a :: t) := by
  induction t generalizing m with
  | nil => simp at h
  | cons b t2 ih =>
    cases m with
    | zero =>
      rw [nth_cons_zero, List.set_cons_zero]
      exact List.Perm.swap a b t2
    | succ k =>
      rw [nth_cons_succ, List.set_cons_succ]
      have hk : k < t2.length := by simpa using h
      exact (List.Perm.swap b (nth t2 k) (t2.set k a)).trans
        ((List.Perm.cons b (ih k hk)).trans (List.Perm.swap a b t2))

theorem Swap_perm (pq : PriorityQueue) (i j : Nat) (hi : i < pq.length)
    (hj : j < pq.length) : (Swap pq i j).Perm pq := by
  induction pq generalizing i j with
  | nil => simp at hi
  | cons a t ih =>
    cases i with
    | zero =>
      cases j with
      | zero =>
        rw [Swap, List.set_set, set_nth_self _ _ hi]
      | succ m =>
        have hm : m < t.length := by simpa using hj
        rw [Swap, nth_cons_zero, nth_cons_succ, List.set_cons_zero, List.set_cons_succ]
        exact cons_set_perm t m a hm
    | succ m =>
      cases j with
      | zero =>
        have hm : m < t.length := by simpa using hi
        rw [Swap, nth_cons_zero, nth_cons_succ, List.set_cons_succ, List.set_cons_zero]
        exact cons_set_perm t m a hm
      | succ k =>
        have hm : m < t.length := by simpa using hi
        have hk : k < t.length := by simpa using hj
        rw [Swap, nth_cons_succ, nth_cons_succ, List.set_cons_succ, List.set_cons_succ]
        exact List.Perm.cons a (ih m k hm hk)

theorem heapUpFuel_perm (fuel : Nat) : ∀ pq j, j < pq.length →
    (heapUpFuel fuel pq j).Perm pq := by
  induction fuel with
  | zero => intro pq j _; exact List.Perm.refl pq
  | succ f ih =>
    intro pq j hj
    simp only [heapUpFuel]
    by_cases h0 : j = 0
    · simp [h0]
    · simp only [h0, if_false]
      by_cases hl : Less pq j ((j - 1) / 2) = true
      · simp only [hl, if_true]
        have hi : (j - 1) / 2 < (Swap pq ((j - 1) / 2) j).length := by
          rw [length_Swap]; omega
        exact (ih _ _ hi).trans (Swap_perm pq _ j (by omega) hj)
      · simp [hl]

theorem heapDownFuel_perm (fuel : Nat) : ∀ pq i n, n ≤ pq.length →
    (heapDownFuel fuel pq i n).Perm pq := by
  induction fuel with
  | zero => intro pq i n _; exact List.Perm.refl pq
  | succ f ih =>
    intro pq i n hn
    simp only [heapDownFuel]
    by_cases h1 : 2 * i + 1 ≥ n
    · simp [h1]
    · simp only [h1, if_false]
      push_neg at h1
      have key : ∀ j, j < n →
          (if Less pq j i = true then heapDownFuel f (Swap pq i j) j n else pq).Perm pq := by
        intro j hjn
        by_cases hl : Less pq j i = true
        · simp only [hl, if_true]
          exact (ih _ _ _ (by rw [length_Swap]; omega)).trans
            (Swap_perm pq i j (by omega) (by omega))
        · simp [hl]
      refine key _ ?_
      split
      · next h =>
        rw [Bool.and_eq_true] at h
        exact of_decide_eq_true h.1
      · omega

theorem heapPush_perm (pq : PriorityQueue) (x : QueueItem) :
    (heapPush pq x).Perm (x :: pq) := by
  unfold heapPush heapUp
  exact (heapUpFuel_perm (pq.length + 1) (pq ++ [x]) pq.length (by simp)).trans
    (List.perm_append_singleton x pq)

theorem UpInv_swap (pq : PriorityQueue) (j : Nat) (hj0 : j ≠ 0) (hj : j < pq.length)
    (hinv : UpInv pq j)
    (hless : lessItem (nth pq j) (nth pq ((j - 1) / 2)) = true) :
    UpInv (Swap pq ((j - 1) / 2) j) ((j - 1) / 2) := by
  obtain ⟨ha, hb⟩ := hinv
  have hij : (j - 1) / 2 < j := by omega
  have hi : (j - 1) / 2 < pq.length := by omega
  set i := (j - 1) / 2 with hidef
  have hlen : (Swap pq i j).length = pq.length := length_Swap pq i j
  have hnthi : nth (Swap pq i j) i = nth pq j := nth_Swap_fst pq i j hi hj
  have hnthj : nth (Swap pq i j) j = nth pq i := nth_Swap_snd pq i j hj
  constructor
  · intro k hk0 hklen hki
    rw [hlen] at hklen
    by_cases hkj : k = j
    · subst hkj
      rw [hnthj, ← hidef, hnthi]
      exact lessItem_asymm hless
    · have hnk : nth (Swap pq i j) k = nth pq k := nth_Swap_other pq i j k hki hkj
      by_cases hpkj : (k - 1) / 2 = j
      · rw [hnk, hpkj, hnthj]
        have hchild : k = 2 * j + 1 ∨ k = 2 * j + 2 := by omega
        exact hb k hklen hchild (by omega)
      · by_cases hpki : (k - 1) / 2 = i
        · rw [hnk, hpki, hnthi]
          have h1 := ha k hk0 hklen hkj
          rw [hpki] at h1
          exact notLess_of_notLess_of_less h1 hless
        · rw [hnk, nth_Swap_other pq i j _ hpki hpkj]
          exact ha k hk0 hklen hkj
  · intro c hclen hc hi0
    rw [hlen] at hclen
    have hnpi : nth (Swap pq i j) ((i - 1) / 2) = nth pq ((i - 1) / 2) :=
      nth_Swap_other pq i j _ (by omega) (by omega)
    by_cases hcj : c = j
    · subst hcj
      rw [hnthj, hnpi]
      exact ha i hi0 hi (by omega)
    · have hci : c ≠ i := by omega
      rw [nth_Swap_other pq i j c hci hcj, hnpi]
      have h1 := ha c (by omega) hclen hcj
      have hpc : (c - 1) / 2 = i := by omega
      rw [hpc] at h1
      exact notLess_trans h1 (ha i hi0 hi (by omega))

theorem UpInv_heap_of_stop (pq : PriorityQueue) (j : Nat) (hinv : UpInv pq j)
    (hstop : j = 0 ∨ lessItem (nth pq j) (nth pq ((j - 1) / 2)) = false) :
    HeapInv pq := by
  intro k hk0 hklen
  by_cases hkj : k = j
  · subst hkj
    rcases hstop with h | h
    · omega
    · exact h
  · exact hinv.1 k hk0 hklen hkj

theorem heapUpFuel_inv (fuel : Nat) : ∀ pq j, j < fuel → j < pq.length → UpInv pq j →
    HeapInv (heapUpFuel fuel pq j) := by
  induction fuel with
  | zero => intro pq j h; omega
  | succ f ih =>
    intro pq j hjf hj hinv
    simp only [heapUpFuel]
    by_cases h0 : j = 0
    · simp only [h0, if_true]
      exact UpInv_heap_of_stop pq j hinv (Or.inl h0)
    · simp only [h0, if_false]
      by_cases hl : Less pq j ((j - 1) / 2) = true
      · simp only [hl, if_true]
        refine ih _ _ (by omega) (by rw [length_Swap]; omega) ?_
        exact UpInv_swap pq j h0 hj hinv hl
      · simp only [hl, if_false]
        have hl2 : lessItem (nth pq j) (nth pq ((j - 1) / 2)) = false := by
          revert hl
          cases hv : Less pq j ((j - 1) / 2) with
          | true => intro hl; exact absurd rfl hl
          | false => intro _; exact hv
        exact UpInv_heap_of_stop pq j hinv (Or.inr hl2)

theorem UpInv_push (pq : PriorityQueue) (x : QueueItem) (hinv : HeapInv pq) :
    UpInv (pq ++ [x]) pq.length := by
  constructor
  · intro k hk0 hklen hkn
    simp only [List.length_append, List.length_singleton] at hklen
    have hk : k < pq.length := by omega
    rw [nth_append_left _ _ _ hk, nth_append_left _ _ _ (by omega)]
    exact hinv k hk0 hk
  · intro c hclen hc _
    simp only [List.length_append, List.length_singleton] at hclen
    omega

theorem heapPush_HeapInv (pq : PriorityQueue) (x : QueueItem) (hinv : HeapInv pq) :
    HeapInv (heapPush pq x) := by
  unfold heapPush heapUp
  exact heapUpFuel_inv (pq.length + 1) (pq ++ [x]) pq.length (by omega) (by simp)
    (UpInv_push pq x hinv)

theorem heapDownFuel_nth_ge (fuel : Nat) : ∀ pq i n m, n ≤ m →
    nth (heapDownFuel fuel pq i n) m = nth pq m := by
  induction fuel with
  | zero => intro pq i n m _; rfl
  | succ f ih =>
    intro pq i n m hm
    simp only [heapDownFuel]
    by_cases h1 : 2 * i + 1 ≥ n
    · simp [h1]
    · simp only [h1, if_false]
      push_neg at h1
      have key : ∀ j, j < n →
          nth (if Less pq j i = true then heapDownFuel f (Swap pq i j) j n else pq) m =
            nth pq m := by
        intro j hjn
        by_cases hl : Less pq j i = true
        · simp only [hl, if_true]
          rw [ih _ _ _ _ hm]
          exact nth_Swap_other pq i j m (by omega) (by omega)
        · simp [hl]
      refine key _ ?_
      split
      · next hcond => rw [Bool.and_eq_true] at hcond; exact of_decide_eq_true hcond.1
      · omega

theorem DownInv_heap_of_far (pq : PriorityQueue) (n i : Nat) (hinv : DownInv pq n i)
    (hfar : n ≤ 2 * i + 1) : HeapInvN pq n := by
  intro k hk0 hkn
  by_cases hpk : (k - 1) / 2 = i
  · omega
  · exact hinv.1 k hk0 hkn hpk

theorem heapDownFuel_inv (fuel : Nat) : ∀ pq i n, n ≤ pq.length → n - i ≤ fuel →
    DownInv pq n i → HeapInvN (heapDownFuel fuel pq i n) n := by
  induction fuel with
  | zero =>
    intro pq i n _ hfuel hinv
    exact DownInv_heap_of_far pq n i hinv (by omega)
  | succ f ih =>
    intro pq i n hn hfuel hinv
    simp only [heapDownFuel]
    by_cases h1 : 2 * i + 1 ≥ n
    · simp only [h1, if_true]
      exact DownInv_heap_of_far pq n i hinv h1
    · simp only [h1, if_false]
      push_neg at h1
      have main : ∀ J, J < n →
          (J = 2 * i + 1 ∧ (2 * i + 1 + 1 < n →
            lessItem (nth pq (2 * i + 1 + 1)) (nth pq (2 * i + 1)) = false)) ∨
          (J = 2 * i + 1 + 1 ∧
            lessItem (nth pq (2 * i + 1 + 1)) (nth pq (2 * i + 1)) = true) →
          HeapInvN (if Less pq J i = true then heapDownFuel f (Swap pq i J) J n else pq)
            n := by
        intro J hJn hJcase
        have hiJ : i < J := by rcases hJcase with ⟨hJ, _⟩ | ⟨hJ, _⟩ <;> omega
        have hparJ : (J - 1) / 2 = i := by rcases hJcase with ⟨hJ, _⟩ | ⟨hJ, _⟩ <;> omega
        by_cases hless : Less pq J i = true
        · simp only [hless, if_true]
          refine ih _ _ _ (by rw [length_Swap]; omega) (by omega) ?_
          have hlessI : lessItem (nth pq J) (nth pq i) = true := hless
          have hnthi : nth (Swap pq i J) i = nth pq J :=
            nth_Swap_fst pq i J (by omega) (by omega)
          have hnthJ : nth (Swap pq i J) J = nth pq i := nth_Swap_snd pq i J (by omega)
          constructor
          · intro k hk0 hkn hpkJ
            by_cases hkJ : k = J
            · subst hkJ
              rw [hparJ, hnthJ, hnthi]
              exact lessItem_asymm hlessI
            · by_cases hki : k = i
              · subst hki
                have hp : nth (Swap pq k J) ((k - 1) / 2) = nth pq ((k - 1) / 2) :=
                  nth_Swap_other pq k J _ (by omega) (by omega)
                rw [hnthi, hp]
                exact hinv.2 hk0 J hJn (by omega)
              · have hnk : nth (Swap pq i J) k = nth pq k :=
                  nth_Swap_other pq i J k hki hkJ
                by_cases hpki : (k - 1) / 2 = i
                · rw [hnk, hpki, hnthi]
                  rcases hJcase with ⟨hJ, hother⟩ | ⟨hJ, hbetter⟩
                  · have hk2 : k = 2 * i + 1 + 1 := by omega
                    subst hk2
                    rw [hJ]
                    exact hother (by omega)
                  · have hk1 : k = 2 * i + 1 := by omega
                    subst hk1
                    rw [hJ]
                    exact lessItem_asymm hbetter
                · rw [hnk, nth_Swap_other pq i J _ hpki hpkJ]
                  exact hinv.1 k hk0 hkn hpki
          · intro hJ0 c hcn hc
            rw [hparJ, hnthi]
            have hcJ : c ≠ J := by omega
            have hci : c ≠ i := by omega
            rw [nth_Swap_other pq i J c hci hcJ]
            have h1c := hinv.1 c (by omega) hcn (by omega)
            have hpc : (c - 1) / 2 = J := by omega
            rw [hpc] at h1c
            exact h1c
        · simp only [hless, if_false]
          have hstop : lessItem (nth pq J) (nth pq i) = false := by
            cases hv : Less pq J i with
            | true => exact absurd hv hless
            | false => exact hv
          intro k hk0 hkn
          by_cases hpk : (k - 1) / 2 = i
          · rw [hpk]
            rcases hJcase with ⟨hJ, hother⟩ | ⟨hJ, hbetter⟩
            · subst hJ
              by_cases hk1 : k = 2 * i + 1
              · subst hk1; exact hstop
              · have hk2 : k = 2 * i + 1 + 1 := by omega
                subst hk2
                exact notLess_trans (hother hkn) hstop
            · subst hJ
              by_cases hk2 : k = 2 * i + 1 + 1
              · subst hk2; exact hstop
              · have hk1 : k = 2 * i + 1 := by omega
                subst hk1
                exact notLess_of_less_of_notLess hbetter hstop
          · exact hinv.1 k hk0 hkn hpk
      refine main _ ?_ ?_
      · split
        · next hcond => rw [Bool.and_eq_true] at hcond; exact of_decide_eq_true hcond.1
        · omega
      · split
        · next hcond =>
          rw [Bool.and_eq_true] at hcond
          exact Or.inr ⟨rfl, hcond.2⟩
        · next hcond =>
          refine Or.inl ⟨rfl, fun h2 => ?_⟩
          cases hv : Less pq (2 * i + 1 + 1) (2 * i + 1) with
          | false => exact hv
          | true => exact absurd (by simp [h2, hv]) hcond

theorem DownInv_pop (pq : PriorityQueue) (n : Nat) (hinv : HeapInv pq)
    (hlen : pq.length = n + 1) : DownInv (Swap pq 0 n) n 0 := by
  constructor
  · intro k hk0 hkn hpk
    have h1 : nth (Swap pq 0 n) k = nth pq k := nth_Swap_other pq 0 n k (by omega) (by omega)
    have h2 : nth (Swap pq 0 n) ((k - 1) / 2) = nth pq ((k - 1) / 2) :=
      nth_Swap_other pq 0 n _ hpk (by omega)
    rw [h1, h2]
    exact hinv k hk0 (by omega)
  · intro h0; omega

theorem heap_root_le (pq : PriorityQueue) (hinv : HeapInv pq) :
    ∀ k, k < pq.length → lessItem (nth pq k) (nth pq 0) = false := by
  intro k
  induction k using Nat.strong_induction_on with
  | _ k ih =>
    intro hk
    cases Nat.eq_zero_or_pos k with
    | inl h0 => subst h0; exact lessItem_self _
    | inr hpos =>
      have hp : (k - 1) / 2 < k := by omega
      exact notLess_trans (hinv k hpos hk) (ih _ hp (by omega))

theorem take_append_nth (l : PriorityQueue) (n : Nat) (h : l.length = n + 1) :
    l.take n ++ [nth l n] = l := by
  induction l generalizing n with
  | nil => simp at h
  | cons a t ih =>
    cases n with
    | zero =>
      have ht : t = [] := List.length_eq_zero.mp (by simpa using h)
      subst ht
      simp [nth]
    | succ m =>
      rw [List.take_succ_cons, nth_cons_succ]
      have hm : t.length = m + 1 := by simpa using h
      simp [ih m hm]

theorem heapPopArr_spec (pq : PriorityQueue) (r : QueueItem) (rest : PriorityQueue)
    (hinv : HeapInv pq) (h : heapPopArr pq = some (r, rest)) :
    HeapInv rest ∧ (∀ x ∈ rest, lessItem x r = false) ∧ (r :: rest).Perm pq := by
  obtain ⟨a, t, rfl⟩ : ∃ a t, pq = a :: t := by
    cases pq with
    | nil => simp [heapPopArr] at h
    | cons a t => exact ⟨a, t, rfl⟩
  simp only [heapPopArr, List.length_cons, Nat.add_sub_cancel, Option.some.injEq,
    Prod.mk.injEq] at h
  obtain ⟨hr, hrest⟩ := h
  subst hr
  subst hrest
  have hlen : (a :: t).length = t.length + 1 := by simp
  have hperm : (heapDown (Swap (a :: t) 0 t.length) 0 t.length).Perm (a :: t) := by
    unfold heapDown
    exact (heapDownFuel_perm t.length _ 0 t.length (by rw [length_Swap]; simp)).trans
      (Swap_perm (a :: t) 0 t.length (by simp) (by simp))
  have hlen1 : (heapDown (Swap (a :: t) 0 t.length) 0 t.length).length = t.length + 1 := by
    rw [hperm.length_eq]; simp
  have hrval : nth (heapDown (Swap (a :: t) 0 t.length) 0 t.length) t.length =
      nth (a :: t) 0 := by
    unfold heapDown
    rw [heapDownFuel_nth_ge t.length _ 0 t.length t.length le_rfl]
    exact nth_Swap_snd (a :: t) 0 t.length (by simp)
  have hinvN : HeapInvN (heapDown (Swap (a :: t) 0 t.length) 0 t.length) t.length := by
    unfold heapDown
    exact heapDownFuel_inv t.length _ 0 t.length (by rw [length_Swap]; simp) (by omega)
      (DownInv_pop (a :: t) t.length hinv (by simp))
  refine ⟨?_, ?_, ?_⟩
  · intro k hk0 hk
    have hrlen : ((heapDown (Swap (a :: t) 0 t.length) 0 t.length).take t.length).length =
        t.length := by
      rw [List.length_take, hlen1]; omega
    rw [hrlen] at hk
    rw [nth_take _ _ _ hk, nth_take _ _ _ (by omega)]
    exact hinvN k hk0 hk
  · intro x hx
    have hx1 : x ∈ heapDown (Swap (a :: t) 0 t.length) 0 t.length :=
      (List.take_sublist _ _).mem hx
    have hx2 : x ∈ a :: t := hperm.mem_iff.mp hx1
    obtain ⟨idx, hidx⟩ := List.mem_iff_get.mp hx2
    have hx3 : nth (a :: t) idx.1 = x := by
      rw [nth, List.getD_eq_getElem _ _ idx.2, ← List.get_eq_getElem]
      exact hidx
    rw [hrval, ← hx3]
    exact heap_root_le (a :: t) hinv idx.1 idx.2
  · have hsplit := take_append_nth (heapDown (Swap (a :: t) 0 t.length) 0 t.length)
      t.length hlen1
    refine (List.perm_append_singleton _ _).symm.trans ?_
    rw [hsplit]
    exact hperm

theorem drainAux_subset (fuel : Nat) : ∀ pq x, HeapInv pq → x ∈ drainAux fuel pq →
    x ∈ pq := by
  induction fuel with
  | zero => intro pq x _ hx; simp [drainAux] at hx
  | succ f ih =>
    intro pq x hinv hx
    rw [drainAux] at hx
    cases hpop : heapPopArr pq with
    | none => rw [hpop] at hx; simp at hx
    | some pr =>
      obtain ⟨r, rest⟩ := pr
      rw [hpop] at hx
      obtain ⟨hinv1, _, hperm⟩ := heapPopArr_spec pq r rest hinv hpop
      rcases List.mem_cons.mp hx with hxr | hxd
      · exact hperm.subset (hxr ▸ List.mem_cons_self r rest)
      · exact hperm.subset (List.mem_cons_of_mem r (ih rest x hinv1 hxd))

theorem drainAux_sorted (fuel : Nat) : ∀ pq, HeapInv pq →
    List.Pairwise (fun a b => lessItem b a = false) (drainAux fuel pq) := by
  induction fuel with
  | zero => intro pq _; simp [drainAux]
  | succ f ih =>
    intro pq hinv
    rw [drainAux]
    cases hpop : heapPopArr pq with
    | none => simp
    | some pr =>
      obtain ⟨r, rest⟩ := pr
      obtain ⟨hinv1, hmem, _⟩ := heapPopArr_spec pq r rest hinv hpop
      exact List.Pairwise.cons
        (fun y hy => hmem y (drainAux_subset f rest y hinv1 hy)) (ih rest hinv1)

theorem Enqueue_ok_items (q : Queue) (job : Job) (now : Int) (q1 : Queue)
    (h : q.Enqueue job now = Except.ok q1) :
    q1.items = heapPush q.items
      { Job := job, Priority := job.Priority, EnqueuedAt := now, AgingBoost := 0 } := by
  simp only [Queue.Enqueue] at h
  split at h
  · simp at h
  · split at h
    · simp at h
    · rw [Except.ok.injEq] at h
      subst h
      rfl

theorem enqueuePairs_HeapInv (l : List (Job × Int)) : ∀ q, HeapInv q.items →
    HeapInv (enqueuePairs q l).items := by
  induction l with
  | nil => intro q h; exact h
  | cons p rest ih =>
    intro q h
    obtain ⟨job, t⟩ := p
    cases he : q.Enqueue job t with
    | ok q1 =>
      have h1 : HeapInv q1.items := by
        rw [Enqueue_ok_items q job t q1 he]
        exact heapPush_HeapInv _ _ h
      simpa [enqueuePairs, he] using ih q1 h1
    | error e => simpa [enqueuePairs, he] using ih q h

/-- C2: for every sequence of jobs (with their clock readings at enqueue
time) pushed through `Enqueue` into a fresh queue, with no aging
applied, the successive dequeues produce the items in an order that is
non-increasing in effective priority (`Priority + AgingBoost`) -
strictly decreasing whenever the effective priorities differ - and FIFO
by `EnqueuedAt` among equal effective priorities. -/
theorem dequeue_order (jobs : List (Job × Int)) (maxSize : Nat) :
    List.Pairwise
      (fun a b => eff b < eff a ∨ (eff b = eff a ∧ a.EnqueuedAt ≤ b.EnqueuedAt))
      (drainQueue (enqueuePairs (NewQueue maxSize) jobs).items) := by
  have hempty : HeapInv (NewQueue maxSize).items := by
    intro k hk0 hk
    simp [NewQueue] at hk
  have hinv := enqueuePairs_HeapInv jobs (NewQueue maxSize) hempty
  exact (drainAux_sorted _ _ hinv).imp (fun hab => (lessItem_false_iff _ _).mp hab)

theorem HasAvailableQuota_iff (t : Tenant) (g gm c m : Int) :
    t.HasAvailableQuota g gm c m = true ↔
      (t.CurrentGPUs + g ≤ t.MaxGPUs ∧
       t.CurrentGPUMemory + gm ≤ t.MaxGPUMemoryMB ∧
       t.CurrentCPUCores + c ≤ t.MaxCPUCores ∧
       t.CurrentMemory + m ≤ t.MaxMemoryMB ∧
       t.CurrentJobs + 1 ≤ t.MaxConcurrentJobs) := by
  unfold Tenant.HasAvailableQuota
  simp only [Bool.and_eq_true, decide_eq_true_eq]
  omega

/-- C1: for a valid job (gpu_count in [1,8], non-empty tenant id) whose
tenant exists, with the queue below capacity and the job id not already
queued (so that repository and queue operations succeed), `SubmitJob`
succeeds exactly when every quota dimension of (current + request) fits
the ceiling and current_jobs + 1 fits max_concurrent_jobs; on quota
failure it returns the quota-exceeded error. -/
theorem SubmitJob_quota_admission (w : World) (q : Queue) (job : Job) (now : Int)
    (tenant : Tenant)
    (hT : getTenant w job.TenantID = some tenant)
    (hgpu1 : 1 ≤ job.GPUCount) (hgpu8 : job.GPUCount ≤ 8) (hten : job.TenantID ≠ "")
    (hcap : q.items.length < q.maxSize)
    (hdup : ∀ it ∈ q.items, it.Job.ID ≠ job.ID) :
    ((SubmitJob w q job now).2.2 = none ↔
      (tenant.CurrentGPUs + job.GPUCount ≤ tenant.MaxGPUs ∧
       tenant.CurrentGPUMemory + job.GPUMemoryMB ≤ tenant.MaxGPUMemoryMB ∧
       tenant.CurrentCPUCores + job.CPUCores ≤ tenant.MaxCPUCores ∧
       tenant.CurrentMemory + job.MemoryMB ≤ tenant.MaxMemoryMB ∧
       tenant.CurrentJobs + 1 ≤ tenant.MaxConcurrentJobs)) ∧
    (¬(tenant.CurrentGPUs + job.GPUCount ≤ tenant.MaxGPUs ∧
       tenant.CurrentGPUMemory + job.GPUMemoryMB ≤ tenant.MaxGPUMemoryMB ∧
       tenant.CurrentCPUCores + job.CPUCores ≤ tenant.MaxCPUCores ∧
       tenant.CurrentMemory + job.MemoryMB ≤ tenant.MaxMemoryMB ∧
       tenant.CurrentJobs + 1 ≤ tenant.MaxConcurrentJobs) →
      (SubmitJob w q job now).2.2 =
        some (SubmitError.quotaExceeded tenant.ID "GPUs" job.GPUCount
          tenant.MaxGPUs tenant.CurrentGPUs)) := by
  have hval : validateJob job = none := by
    unfold validateJob
    rw [if_neg (by omega), if_neg (by omega), if_neg hten]
  by_cases hq : tenant.HasAvailableQuota job.GPUCount job.GPUMemoryMB job.CPUCores
      job.MemoryMB = true
  · have hc1 : ¬(q.items.length ≥ q.maxSize) := by omega
    have hc2 : (q.items.any fun it => it.Job.ID == job.ID) = false := by
      rw [List.any_eq_false]
      intro it hit
      simpa using hdup it hit
    have hrun : (SubmitJob w q job now).2.2 = none := by
      simp [SubmitJob, Queue.Enqueue, hval, hT, hq, hc1, hc2]
    rw [hrun]
    constructor
    · simp only [true_iff]
      exact (HasAvailableQuota_iff tenant _ _ _ _).mp hq
    · intro hneg
      exact absurd ((HasAvailableQuota_iff tenant _ _ _ _).mp hq) hneg
  · have hq' : tenant.HasAvailableQuota job.GPUCount job.GPUMemoryMB job.CPUCores
        job.MemoryMB = false := by
      cases hv : tenant.HasAvailableQuota job.GPUCount job.GPUMemoryMB job.CPUCores
          job.MemoryMB with
      | true => exact absurd hv hq
      | false => rfl
    have hrun : (SubmitJob w q job now).2.2 =
        some (SubmitError.quotaExceeded tenant.ID "GPUs" job.GPUCount
          tenant.MaxGPUs tenant.CurrentGPUs) := by
      simp [SubmitJob, hval, hT, hq']
    rw [hrun]
    constructor
    · constructor
      · intro hcontra
        exact absurd hcontra (by simp)
      · intro hconj
        have hconj2 := (HasAvailableQuota_iff tenant _ _ _ _).mpr hconj
        rw [hq'] at hconj2
        exact absurd hconj2 (by simp)
    · intro _; rfl

/-- Witness for C1: at the concrete world `wC1` the hypotheses hold and
the submit of `baseJob` succeeds. -/
theorem SubmitJob_quota_admission_witness :
    (getTenant wC1 baseJob.TenantID = some baseTenant ∧
     1 ≤ baseJob.GPUCount ∧ baseJob.GPUCount ≤ 8 ∧ baseJob.TenantID ≠ "" ∧
     (NewQueue 16).items.length < (NewQueue 16).maxSize ∧
     (∀ it ∈ (NewQueue 16).items, it.Job.ID ≠ baseJob.ID)) ∧
    (SubmitJob wC1 (NewQueue 16) baseJob 7).2.2 = none :=
  ⟨⟨by decide, by decide, by decide, by decide, by decide, by decide⟩,
   ((SubmitJob_quota_admission wC1 (NewQueue 16) baseJob 7 baseTenant (by decide)
      (by decide) (by decide) (by decide) (by decide) (by decide)).1).mpr (by decide)⟩

/-- C10: when a valid job passes quota admission but the enqueue fails
(queue at capacity or duplicate id), `SubmitJob` returns an error while
the job has already been persisted - it stays appended to the store in
state Pending with `SubmittedAt = now`, and the queue is unchanged. -/
theorem SubmitJob_persists_on_enqueue_failure (w : World) (q : Queue) (job : Job)
    (now : Int) (tenant : Tenant)
    (hT : getTenant w job.TenantID = some tenant)
    (hgpu1 : 1 ≤ job.GPUCount) (hgpu8 : job.GPUCount ≤ 8) (hten : job.TenantID ≠ "")
    (hquota : tenant.HasAvailableQuota job.GPUCount job.GPUMemoryMB job.CPUCores
      job.MemoryMB = true)
    (hfail : q.items.length ≥ q.maxSize ∨ (∃ it ∈ q.items, it.Job.ID = job.ID)) :
    (∃ e, (SubmitJob w q job now).2.2 = some (SubmitError.enqueueFailed e)) ∧
    (SubmitJob w q job now).1.jobs =
      w.jobs ++ [{ job with State := JobState.pending, SubmittedAt := now }] ∧
    (SubmitJob w q job now).2.1 = q := by
  have hval : validateJob job = none := by
    unfold validateJob
    rw [if_neg (by omega), if_neg (by omega), if_neg hten]
  have henq : ∃ e, q.Enqueue { job with State := JobState.pending, SubmittedAt := now }
      now = Except.error e := by
    unfold Queue.Enqueue
    by_cases hc1 : q.items.length ≥ q.maxSize
    · exact ⟨_, by rw [if_pos hc1]⟩
    · rcases hfail with h | ⟨it, hit, hid⟩
      · omega
      · have hany : ∀ jb : Job, jb.ID = job.ID →
            (q.items.any fun x => x.Job.ID == jb.ID) = true := by
          intro jb hjb
          rw [List.any_eq_true]
          exact ⟨it, hit, by simp [hid, hjb]⟩
        exact ⟨_, by rw [if_neg hc1, if_pos (hany _ rfl)]⟩
  obtain ⟨e, he⟩ := henq
  refine ⟨⟨e, ?_⟩, ?_, ?_⟩ <;>
    simp [SubmitJob, createJob, hval, hT, hquota, he]

/-- Witness for C10: submitting `baseJob` against a zero-capacity queue
fails, yet the store keeps the Pending row. -/
theorem SubmitJob_persists_on_enqueue_failure_witness :
    (getTenant wC1 baseJob.TenantID = some baseTenant ∧
     1 ≤ baseJob.GPUCount ∧ baseJob.GPUCount ≤ 8 ∧ baseJob.TenantID ≠ "" ∧
     baseTenant.HasAvailableQuota baseJob.GPUCount baseJob.GPUMemoryMB
       baseJob.CPUCores baseJob.MemoryMB = true ∧
     (NewQueue 0).items.length ≥ (NewQueue 0).maxSize) ∧
    ((∃ e, (SubmitJob wC1 (NewQueue 0) baseJob 7).2.2 =
        some (SubmitError.enqueueFailed e)) ∧
     (SubmitJob wC1 (NewQueue 0) baseJob 7).1.jobs =
       wC1.jobs ++ [{ baseJob with State := JobState.pending, SubmittedAt := 7 }] ∧
     (SubmitJob wC1 (NewQueue 0) baseJob 7).2.1 = NewQueue 0) :=
  ⟨⟨by decide, by decide, by decide, by decide, by decide, by decide⟩,
   SubmitJob_persists_on_enqueue_failure wC1 (NewQueue 0) baseJob 7 baseTenant
     (by decide) (by decide) (by decide) (by decide) (by decide)
     (Or.inl (by decide))⟩

theorem find_replace_self {α : Type} (idf : α → String) (l : List α) (g : α)
    (hmem : ∃ x ∈ l, idf x = idf g) :
    (l.map fun x => if idf x == idf g then g else x).find? (fun x => idf x == idf g) =
      some g := by
  induction l with
  | nil => simp at hmem
  | cons a t ih =>
    by_cases ha : idf a = idf g
    · rw [List.map_cons, if_pos (by simp [ha]), List.find?_cons_of_pos _ (by simp)]
    · rw [List.map_cons, if_neg (by simp [ha]),
        List.find?_cons_of_neg _ (by simp [ha])]
      rcases hmem with ⟨x, hx, hid⟩
      rcases List.mem_cons.mp hx with hxa | hxt
      · exact absurd (hxa ▸ hid) ha
      · exact ih ⟨x, hxt, hid⟩

theorem find_replace_ne {α : Type} (idf : α → String) (l : List α) (g : α) (id2 : String)
    (hne : idf g ≠ id2) :
    (l.map fun x => if idf x == idf g then g else x).find? (fun x => idf x == id2) =
      l.find? (fun x => idf x == id2) := by
  induction l with
  | nil => rfl
  | cons a t ih =>
    by_cases ha : idf a = idf g
    · rw [List.map_cons, if_pos (by simp [ha]), List.find?_cons_of_neg _ (by simp [hne]),
        List.find?_cons_of_neg _ (by simp [ha ▸ hne])]
      exact ih
    · rw [List.map_cons, if_neg (by simp [ha])]
      by_cases hc : idf a = id2
      · rw [List.find?_cons_of_pos _ (by simp [hc]), List.find?_cons_of_pos _ (by simp [hc])]
      · rw [List.find?_cons_of_neg _ (by simp [hc]), List.find?_cons_of_neg _ (by simp [hc])]
        exact ih

theorem map_replace_ids {α : Type} (idf : α → String) (l : List α) (g : α) :
    (l.map fun x => if idf x == idf g then g else x).map idf = l.map idf := by
  induction l with
  | nil => rfl
  | cons a t ih =>
    by_cases ha : idf a = idf g
    · rw [List.map_cons, if_pos (by simp [ha]), List.map_cons, List.map_cons, ih, ha]
    · rw [List.map_cons, if_neg (by simp [ha]), List.map_cons, List.map_cons, ih]

theorem find_pred_id {α : Type} (l : List α) (idf : α → String) (i j : String)
    (h : i = j) :
    l.find? (fun x => idf x == i) = l.find? (fun x => idf x == j) := by rw [h]

theorem mem_replace_of_ne {α : Type} (idf : α → String) (l : List α) (g x : α)
    (hx : x ∈ l) (hne : idf x ≠ idf g) :
    x ∈ (l.map fun y => if idf y == idf g then g else y) := by
  have : x = (fun y => if idf y == idf g then g else y) x := by simp [hne]
  rw [this]
  exact List.mem_map_of_mem _ hx

theorem foldGPU_world (f : GPU → GPU) : ∀ (todo : List GPU) (w : World),
    (todo.foldl (fun acc g => updateGPU acc (f g)) w).gpus =
      todo.foldl (fun l g => l.map fun x => if x.ID == (f g).ID then f g else x) w.gpus ∧
    (todo.foldl (fun acc g => updateGPU acc (f g)) w).nodes = w.nodes ∧
    (todo.foldl (fun acc g => updateGPU acc (f g)) w).allocations = w.allocations ∧
    (todo.foldl (fun acc g => updateGPU acc (f g)) w).tenants = w.tenants ∧
    (todo.foldl (fun acc g => updateGPU acc (f g)) w).jobs = w.jobs := by
  intro todo
  induction todo with
  | nil => intro w; exact ⟨rfl, rfl, rfl, rfl, rfl⟩
  | cons g rest ih => intro w; exact ih (updateGPU w (f g))

theorem fold_replace_find_untouched (f : GPU → GPU) (hid : ∀ g, (f g).ID = g.ID)
    (id2 : String) :
    ∀ (todo : List GPU) (l : List GPU), (∀ g ∈ todo, g.ID ≠ id2) →
    (todo.foldl (fun acc g => acc.map fun x => if x.ID == (f g).ID then f g else x)
      l).find? (fun x => x.ID == id2) = l.find? (fun x => x.ID == id2) := by
  intro todo
  induction todo with
  | nil => intro l _; rfl
  | cons g rest ih =>
    intro l hne
    have h1 := ih (l.map fun x => if x.ID == (f g).ID then f g else x)
      (fun g2 hg2 => hne g2 (List.mem_cons_of_mem _ hg2))
    rw [List.foldl_cons, h1]
    have h2 := find_replace_ne (fun x : GPU => x.ID) l (f g) id2
      (by show (f g).ID ≠ id2; rw [hid g]; exact hne g (List.mem_cons_self _ _))
    exact h2

theorem fold_replace_find_bound (f : GPU → GPU) (hid : ∀ g, (f g).ID = g.ID) :
    ∀ (todo : List GPU) (l : List GPU),
    ((l.map fun x => x.ID).Nodup) →
    ((todo.map fun x => x.ID).Nodup) →
    (∀ g ∈ todo, g ∈ l) →
    ∀ g ∈ todo,
      ((todo.foldl (fun acc g2 => acc.map fun x => if x.ID == (f g2).ID then f g2 else x)
        l).find? fun x => x.ID == g.ID) = some (f g) := by
  intro todo
  induction todo with
  | nil => intro l _ _ _ g hg; simp at hg
  | cons g2 rest ih =>
    intro l hl hnodup hmem g hg
    simp only [List.map_cons, List.nodup_cons] at hnodup
    rcases List.mem_cons.mp hg with hgh | hgt
    · subst hgh
      rw [List.foldl_cons]
      rw [fold_replace_find_untouched f hid g.ID rest _ ?hrest]
      case hrest =>
        intro g3 hg3 heq
        exact hnodup.1 (heq ▸ List.mem_map_of_mem _ hg3)
      have hself := find_replace_self (fun x : GPU => x.ID) l (f g)
        ⟨g, hmem g (List.mem_cons_self _ _), (hid g).symm⟩
      have hpred : (fun x : GPU => x.ID == (f g).ID) = (fun x : GPU => x.ID == g.ID) := by
        rw [hid g]
      rw [hpred] at hself
      exact hself
    · rw [List.foldl_cons]
      refine ih _ ?_ hnodup.2 ?_ g hgt
      · rw [map_replace_ids (fun x : GPU => x.ID) l (f g2)]
        exact hl
      · intro g4 hg4
        refine mem_replace_of_ne (fun x : GPU => x.ID) l (f g2) g4
          (hmem g4 (List.mem_cons_of_mem _ hg4)) ?_
        show g4.ID ≠ (f g2).ID
        rw [hid g2]
        intro heq
        exact hnodup.1 (heq ▸ List.mem_map_of_mem _ hg4)

theorem collectAvail_spec (now : Int) (count : Int) :
    ∀ (gpus acc : List GPU), ∃ s,
      collectAvailGPUs now count acc gpus = acc ++ s ∧ s.Sublist gpus ∧
      (∀ g ∈ s, g.IsAvailable now = true) := by
  intro gpus
  induction gpus with
  | nil => intro acc; exact ⟨[], by simp [collectAvailGPUs], List.Sublist.refl _, by simp⟩
  | cons g rest ih =>
    intro acc
    rw [collectAvailGPUs]
    by_cases hav : g.IsAvailable now = true
    · simp only [hav, if_true]
      by_cases hcnt : ((acc ++ [g]).length : Int) = count
      · rw [if_pos hcnt]
        exact ⟨[g], rfl, by simp, by simpa using hav⟩
      · rw [if_neg hcnt]
        obtain ⟨s, hs, hsub, hsav⟩ := ih (acc ++ [g])
        refine ⟨g :: s, by rw [hs, List.append_assoc]; rfl, List.Sublist.cons₂ g hsub, ?_⟩
        intro x hx
        rcases List.mem_cons.mp hx with hxg | hxs
        · exact hxg ▸ hav
        · exact hsav x hxs
    · have hav2 : g.IsAvailable now = false := by
        cases hv : g.IsAvailable now with
        | true => exact absurd hv hav
        | false => rfl
      simp only [hav2, Bool.false_eq_true, if_false]
      obtain ⟨s, hs, hsub, hsav⟩ := ih acc
      exact ⟨s, hs, List.Sublist.cons g hsub, hsav⟩

theorem createAllocation_unfold (w : World) (request : AllocationRequest) (node : Node)
    (gpus : List GPU) (now : Int) :
    createAllocation w request node gpus now =
      (updateNode
        (gpus.foldl (fun acc g => updateGPU acc (boundGPU request now g))
          (createAllocationRow w (allocationOf request node gpus now)))
        (decrementedNode request gpus node),
       { Success := true, AllocationID := generateAllocationID now,
         GPUIDs := gpus.map (fun g => g.ID), NodeID := node.ID, Message := "" }) := rfl

theorem createAllocation_spec (w : World) (request : AllocationRequest) (node : Node)
    (gpus : List GPU) (now : Int)
    (hids : (w.gpus.map fun x => x.ID).Nodup)
    (hgids : (gpus.map fun x => x.ID).Nodup)
    (hmem : ∀ g ∈ gpus, g ∈ w.gpus)
    (hnode : ∃ x ∈ w.nodes, x.ID = node.ID) :
    (createAllocation w request node gpus now).2.Success = true ∧
    (createAllocation w request node gpus now).2.GPUIDs = gpus.map (fun g => g.ID) ∧
    (createAllocation w request node gpus now).2.NodeID = node.ID ∧
    (createAllocation w request node gpus now).1.allocations =
      w.allocations ++ [allocationOf request node gpus now] ∧
    (∀ g ∈ gpus, getGPU (createAllocation w request node gpus now).1 g.ID =
      some (boundGPU request now g)) ∧
    getNode (createAllocation w request node gpus now).1 node.ID =
      some (decrementedNode request gpus node) ∧
    (createAllocation w request node gpus now).1.tenants = w.tenants ∧
    (createAllocation w request node gpus now).1.jobs = w.jobs := by
  have hfold := foldGPU_world (boundGPU request now) gpus
    (createAllocationRow w (allocationOf request node gpus now))
  refine ⟨rfl, rfl, rfl, ?_, ?_, ?_, ?_, ?_⟩
  · rw [createAllocation_unfold]
    exact hfold.2.2.1
  · intro g hg
    rw [createAllocation_unfold]
    show ((gpus.foldl (fun acc g => updateGPU acc (boundGPU request now g))
      (createAllocationRow w (allocationOf request node gpus now))).gpus).find?
        (fun x => x.ID == g.ID) = some (boundGPU request now g)
    rw [hfold.1]
    exact fold_replace_find_bound (boundGPU request now) (fun _ => rfl) gpus w.gpus
      hids hgids hmem g hg
  · rw [createAllocation_unfold]
    show ((gpus.foldl (fun acc g => updateGPU acc (boundGPU request now g))
      (createAllocationRow w (allocationOf request node gpus now))).nodes.map
        (fun x => if x.ID == (decrementedNode request gpus node).ID
          then decrementedNode request gpus node else x)).find?
        (fun x => x.ID == node.ID) = some (decrementedNode request gpus node)
    rw [hfold.2.1]
    exact find_replace_self (fun x : Node => x.ID) w.nodes
      (decrementedNode request gpus node) (by simpa [decrementedNode] using hnode)
  · rw [createAllocation_unfold]
    exact hfold.2.2.2.1
  · rw [createAllocation_unfold]
    exact hfold.2.2.2.2

theorem gangSchedule_spec (w : World) (request : AllocationRequest) (now : Int) :
    ∀ nodes : List Node,
      ((gangSchedule w request nodes now).1 = w ∧
       (gangSchedule w request nodes now).2.2 = some AllocError.gangSchedulingFailed) ∨
      (∃ node ∈ nodes, ∃ gpus : List GPU,
        gpus = collectAvailGPUs now request.GPUCount [] (listGPUsByNode w node.ID) ∧
        (gpus.length : Int) = request.GPUCount ∧
        node.AvailableGPUs ≥ request.GPUCount ∧
        gangSchedule w request nodes now =
          ((createAllocation w request node gpus now).1,
           (createAllocation w request node gpus now).2, none)) := by
  intro nodes
  induction nodes with
  | nil => left; exact ⟨rfl, rfl⟩
  | cons node rest ih =>
    simp only [gangSchedule]
    by_cases hc : node.AvailableGPUs ≥ request.GPUCount
    · rw [if_pos hc]
      by_cases hlen : ((collectAvailGPUs now request.GPUCount []
          (listGPUsByNode w node.ID)).length : Int) = request.GPUCount
      · rw [if_pos hlen]
        right
        refine ⟨node, List.mem_cons_self _ _, _, rfl, hlen, hc, ?_⟩
        cases hca : createAllocation w request node
          (collectAvailGPUs now request.GPUCount [] (listGPUsByNode w node.ID)) now with
        | mk w1 res => simp [hca]
      · rw [if_neg hlen]
        rcases ih with h | ⟨n2, hn2, gpus, hrest⟩
        · left; exact h
        · right; exact ⟨n2, List.mem_cons_of_mem _ hn2, gpus, hrest⟩
    · rw [if_neg hc]
      rcases ih with h | ⟨n2, hn2, gpus, hrest⟩
      · left; exact h
      · right; exact ⟨n2, List.mem_cons_of_mem _ hn2, gpus, hrest⟩

/-- C4: a gang allocation is atomic.  For every gang request over the
filtered nodes, `gangSchedule` either fails with the gang-scheduling
error and leaves the whole world unchanged, or succeeds on a single
node: it binds exactly `GPUCount` GPUs, all on that node and all
available, persists one Active allocation listing them, marks each of
those GPUs allocated, and decrements that node's availability
counters - leaving tenants and jobs untouched. -/
theorem gang_atomicity (w : World) (request : AllocationRequest) (nodes : List Node)
    (now : Int)
    (hids : (w.gpus.map fun x => x.ID).Nodup)
    (hnodes : ∀ n ∈ nodes, n ∈ w.nodes) :
    ((gangSchedule w request nodes now).1 = w ∧
     (gangSchedule w request nodes now).2.2 = some AllocError.gangSchedulingFailed) ∨
    (∃ node ∈ nodes, ∃ gpus : List GPU,
      (gangSchedule w request nodes now).2.2 = none ∧
      (gpus.length : Int) = request.GPUCount ∧
      (∀ g ∈ gpus, g ∈ w.gpus ∧ g.NodeID = node.ID ∧ g.IsAvailable now = true) ∧
      (gangSchedule w request nodes now).1.allocations =
        w.allocations ++ [allocationOf request node gpus now] ∧
      (∀ g ∈ gpus, getGPU (gangSchedule w request nodes now).1 g.ID =
        some (boundGPU request now g)) ∧
      getNode (gangSchedule w request nodes now).1 node.ID =
        some (decrementedNode request gpus node) ∧
      (gangSchedule w request nodes now).1.tenants = w.tenants ∧
      (gangSchedule w request nodes now).1.jobs = w.jobs) := by
  rcases gangSchedule_spec w request now nodes with h | ⟨node, hn, gpus, hgdef, hglen, _, heq⟩
  · left; exact h
  · right
    obtain ⟨s, hs, hsub, hsav⟩ := collectAvail_spec now request.GPUCount
      (listGPUsByNode w node.ID) []
    rw [List.nil_append] at hs
    have hgpus_eq : gpus = s := by rw [hgdef, hs]
    rw [← hgpus_eq] at hsub hsav
    have hmemb : ∀ g ∈ gpus, g ∈ w.gpus ∧ g.NodeID = node.ID ∧
        g.IsAvailable now = true := by
      intro g hg
      have hfil : g ∈ listGPUsByNode w node.ID := hsub.mem hg
      rw [listGPUsByNode, List.mem_filter] at hfil
      exact ⟨hfil.1, by simpa using hfil.2, hsav g hg⟩
    have hmem : ∀ g ∈ gpus, g ∈ w.gpus := fun g hg => (hmemb g hg).1
    have hgids : (gpus.map fun x => x.ID).Nodup := by
      have hsub2 : (gpus.map fun x : GPU => x.ID).Sublist
          (w.gpus.map fun x : GPU => x.ID) :=
        List.Sublist.map _ (hsub.trans (List.filter_sublist w.gpus))
      exact hids.sublist hsub2
    have hnode : ∃ x ∈ w.nodes, x.ID = node.ID := ⟨node, hnodes node hn, rfl⟩
    obtain ⟨_, _, _, halloc, hgpu, hnoderes, hten, hjobs⟩ :=
      createAllocation_spec w request node gpus now hids hgids hmem hnode
    refine ⟨node, hn, gpus, ?_, hglen, hmemb, ?_, ?_, ?_, ?_, ?_⟩
    · rw [heq]
    · rw [heq]; exact halloc
    · intro g hg; rw [heq]; exact hgpu g hg
    · rw [heq]; exact hnoderes
    · rw [heq]; exact hten
    · rw [heq]; exact hjobs

/-- Witness for C4 at the concrete world `wC4`. -/
theorem gang_atomicity_witness :
    ((wC4.gpus.map fun x => x.ID).Nodup ∧ (∀ n ∈ [nodeC4], n ∈ wC4.nodes)) ∧
    (((gangSchedule wC4 reqC4 [nodeC4] 3).1 = wC4 ∧
      (gangSchedule wC4 reqC4 [nodeC4] 3).2.2 = some AllocError.gangSchedulingFailed) ∨
     (∃ node ∈ [nodeC4], ∃ gpus : List GPU,
       (gangSchedule wC4 reqC4 [nodeC4] 3).2.2 = none ∧
       (gpus.length : Int) = reqC4.GPUCount ∧
       (∀ g ∈ gpus, g ∈ wC4.gpus ∧ g.NodeID = node.ID ∧ g.IsAvailable 3 = true) ∧
       (gangSchedule wC4 reqC4 [nodeC4] 3).1.allocations =
         wC4.allocations ++ [allocationOf reqC4 node gpus 3] ∧
       (∀ g ∈ gpus, getGPU (gangSchedule wC4 reqC4 [nodeC4] 3).1 g.ID =
         some (boundGPU reqC4 3 g)) ∧
       getNode (gangSchedule wC4 reqC4 [nodeC4] 3).1 node.ID =
         some (decrementedNode reqC4 gpus node) ∧
       (gangSchedule wC4 reqC4 [nodeC4] 3).1.tenants = wC4.tenants ∧
       (gangSchedule wC4 reqC4 [nodeC4] 3).1.jobs = wC4.jobs)) :=
  ⟨⟨by decide, by decide⟩, gang_atomicity wC4 reqC4 [nodeC4] 3 (by decide) (by decide)⟩

theorem IsAvailable_iff (g : GPU) (now : Int) :
    g.IsAvailable now = true ↔
      (g.Allocated = false ∧ g.Health = GPUHealth.healthy ∧
       g.ThermalThrottle = false ∧ now - g.CoolingPeriod > 0) := by
  unfold GPU.IsAvailable
  simp [Bool.and_eq_true, decide_eq_true_eq, Bool.not_eq_true', and_assoc]

theorem bestFitLoop_spec (w : World) (request : AllocationRequest) (now : Int) :
    ∀ (nodes : List Node) (minWaste : Int) (best : Option (Node × List GPU)),
    (∀ nb gb, best = some (nb, gb) → ∀ g ∈ gb, g ∈ w.gpus ∧ g.IsAvailable now = true) →
    ∀ nb gb, bestFitLoop w request now nodes minWaste best = some (nb, gb) →
      ∀ g ∈ gb, g ∈ w.gpus ∧ g.IsAvailable now = true := by
  intro nodes
  induction nodes with
  | nil => intro minWaste best hbest nb gb h; exact hbest nb gb h
  | cons node rest ih =>
    intro minWaste best hbest nb gb h
    simp only [bestFitLoop] at h
    by_cases h1 : ((((listGPUsByNode w node.ID).filter
        (fun g => g.IsAvailable now)).length : Int) ≥ request.GPUCount)
    · rw [if_pos h1] at h
      by_cases h2 : ((((listGPUsByNode w node.ID).filter
          (fun g => g.IsAvailable now)).length : Int) - request.GPUCount < minWaste)
      · rw [if_pos h2] at h
        refine ih _ _ ?_ nb gb h
        intro nb2 gb2 heq g hg
        rw [Option.some.injEq, Prod.mk.injEq] at heq
        rw [← heq.2] at hg
        have hg2 := (List.take_sublist _ _).mem hg
        rw [List.mem_filter] at hg2
        refine ⟨?_, hg2.2⟩
        have := hg2.1
        rw [listGPUsByNode, List.mem_filter] at this
        exact this.1
      · rw [if_neg h2] at h
        exact ih _ _ hbest nb gb h
    · rw [if_neg h1] at h
      exact ih _ _ hbest nb gb h

/-- C9 (amended): the GPU availability predicate used by the allocator
takes no configuration input at all - `enable_thermal_aware` is never
consulted - so the thermal conditions always apply: every GPU id bound
by a successful `Allocate` belongs to a GPU that was unallocated,
Healthy, not thermally throttled and past its cooling period. -/
theorem Allocate_enforces_thermal (w : World) (request : AllocationRequest) (now : Int)
    (hok : (Allocate w request now).2.2 = none) :
    ∀ gid ∈ (Allocate w request now).2.1.GPUIDs, ∃ g, g ∈ w.gpus ∧ g.ID = gid ∧
      g.Allocated = false ∧ g.Health = GPUHealth.healthy ∧
      g.ThermalThrottle = false ∧ now - g.CoolingPeriod > 0 := by
  intro gid hgid
  simp only [Allocate] at hok hgid
  by_cases hlen : ((listNodes w).filter (fun n =>
      n.HasCapacity request.GPUCount request.CPUCores request.MemoryMB)).length = 0
  · rw [if_pos hlen] at hok; simp at hok
  · rw [if_neg hlen] at hok hgid
    by_cases hgang : request.GangScheduling = true
    · rw [if_pos hgang] at hok hgid
      rcases gangSchedule_spec w request now ((listNodes w).filter (fun n =>
          n.HasCapacity request.GPUCount request.CPUCores request.MemoryMB)) with
        ⟨_, herr⟩ | ⟨node, _, gpus, hgdef, _, _, heq⟩
      · rw [herr] at hok; simp at hok
      · rw [heq] at hgid
        have hgid2 : gid ∈ gpus.map (fun g => g.ID) := hgid
        obtain ⟨g, hgmem, hgeq⟩ := List.mem_map.mp hgid2
        obtain ⟨s, hs, hsub, hsav⟩ := collectAvail_spec now request.GPUCount
          (listGPUsByNode w node.ID) []
        rw [List.nil_append] at hs
        rw [hgdef, hs] at hgmem
        have hfil2 : g ∈ listGPUsByNode w node.ID := hsub.mem hgmem
        rw [listGPUsByNode, List.mem_filter] at hfil2
        obtain ⟨ha, hh, ht, hc⟩ := (IsAvailable_iff g now).mp (hsav g hgmem)
        exact ⟨g, hfil2.1, hgeq, ha, hh, ht, hc⟩
    · rw [if_neg hgang] at hok hgid
      rw [bestFitSchedule] at hok hgid
      cases hbf : bestFitLoop w request now ((listNodes w).filter (fun n =>
          n.HasCapacity request.GPUCount request.CPUCores request.MemoryMB))
          999999 none with
      | none => rw [hbf] at hok; simp at hok
      | some pr =>
        obtain ⟨nodeB, gpusB⟩ := pr
        rw [hbf] at hgid
        have hgid3 : gid ∈ gpusB.map (fun g => g.ID) := hgid
        obtain ⟨g, hgmem, hgeq⟩ := List.mem_map.mp hgid3
        have hprop := bestFitLoop_spec w request now ((listNodes w).filter (fun n =>
            n.HasCapacity request.GPUCount request.CPUCores request.MemoryMB))
            999999 none (by intro nb gb h; simp at h) nodeB gpusB hbf g hgmem
        obtain ⟨ha, hh, ht, hc⟩ := (IsAvailable_iff g now).mp hprop.2
        exact ⟨g, hprop.1, hgeq, ha, hh, ht, hc⟩

/-- Counterexample for C9 as stated: the configuration has
`enable_thermal_aware = false`, the GPU is unallocated and Healthy, yet
`IsAvailable` (which consults no configuration at all) still rejects it
for its thermal throttle, and the allocator reports insufficient
resources instead of binding it. -/
theorem thermal_flag_ignored_counterexample :
    cfgThermalOff.EnableThermalAware = false ∧
    gpuThr.Allocated = false ∧ gpuThr.Health = GPUHealth.healthy ∧
    gpuThr.ThermalThrottle = true ∧
    gpuThr.IsAvailable 100 = false ∧
    (Allocate wC9 reqC9 100).2.2 = some AllocError.insufficientResources := by
  refine ⟨rfl, rfl, rfl, rfl, by decide, by decide⟩

/-- Witness for the amended C9 theorem at a concrete successful
allocation. -/
theorem Allocate_enforces_thermal_witness :
    (Allocate wC4 reqC9 3).2.2 = none ∧
    (∀ gid ∈ (Allocate wC4 reqC9 3).2.1.GPUIDs, ∃ g, g ∈ wC4.gpus ∧ g.ID = gid ∧
      g.Allocated = false ∧ g.Health = GPUHealth.healthy ∧
      g.ThermalThrottle = false ∧ 3 - g.CoolingPeriod > 0) :=
  ⟨by decide, Allocate_enforces_thermal wC4 reqC9 3 (by decide)⟩

theorem foldUnbind_world : ∀ (ids : List String) (w : World),
    ((ids.foldl (fun acc gpuID =>
      match getGPU acc gpuID with
      | none => acc
      | some gpu => updateGPU acc { gpu with Allocated := false, AllocationID := "",
                                             JobID := "", TenantID := "" }) w).nodes =
        w.nodes) ∧
    ((ids.foldl (fun acc gpuID =>
      match getGPU acc gpuID with
      | none => acc
      | some gpu => updateGPU acc { gpu with Allocated := false, AllocationID := "",
                                             JobID := "", TenantID := "" }) w).allocations =
        w.allocations) ∧
    ((ids.foldl (fun acc gpuID =>
      match getGPU acc gpuID with
      | none => acc
      | some gpu => updateGPU acc { gpu with Allocated := false, AllocationID := "",
                                             JobID := "", TenantID := "" }) w).tenants =
        w.tenants) ∧
    ((ids.foldl (fun acc gpuID =>
      match getGPU acc gpuID with
      | none => acc
      | some gpu => updateGPU acc { gpu with Allocated := false, AllocationID := "",
                                             JobID := "", TenantID := "" }) w).jobs =
        w.jobs) := by
  intro ids
  induction ids with
  | nil => intro w; exact ⟨rfl, rfl, rfl, rfl⟩
  | cons gpuID rest ih =>
    intro w
    cases h : getGPU w gpuID with
    | none =>
      simp only [List.foldl_cons, h]
      exact ih w
    | some gpu =>
      simp only [List.foldl_cons, h]
      exact ih (updateGPU w { gpu with Allocated := false, AllocationID := "",
                                       JobID := "", TenantID := "" })

theorem CalculateDuration_stamped (a : Allocation) (t : Int) :
    Allocation.CalculateDuration
      { a with State := AllocationState.completed, CompletedAt := some t } =
      releasedAllocation a t := rfl

theorem Free_run (w : World) (allocationID : String) (t : Int) (a : Allocation)
    (n : Node)
    (hA : getAllocation w allocationID = some a)
    (hN : getNode w a.NodeID = some n) :
    Free w allocationID t =
      (updateNode (a.GPUIDs.foldl (fun acc gpuID =>
        match getGPU acc gpuID with
        | none => acc
        | some gpu => updateGPU acc { gpu with Allocated := false, AllocationID := "",
                                               JobID := "", TenantID := "" })
        (updateAllocation w (releasedAllocation a t))) (incrementedNode a n), true) := by
  have hN2 : getNode (a.GPUIDs.foldl (fun acc gpuID =>
      match getGPU acc gpuID with
      | none => acc
      | some gpu => updateGPU acc { gpu with Allocated := false, AllocationID := "",
                                             JobID := "", TenantID := "" })
      (updateAllocation w (releasedAllocation a t))) a.NodeID = some n := by
    rw [getNode,
      (foldUnbind_world a.GPUIDs (updateAllocation w (releasedAllocation a t))).1]
    exact hN
  simp only [Free, hA, CalculateDuration_stamped, hN2]
  rfl

theorem Free_nodes (w : World) (allocationID : String) (t : Int) (a : Allocation)
    (n : Node)
    (hA : getAllocation w allocationID = some a)
    (hN : getNode w a.NodeID = some n) :
    (Free w allocationID t).1.nodes =
      w.nodes.map (fun x => if x.ID == (incrementedNode a n).ID
        then incrementedNode a n else x) := by
  rw [Free_run w allocationID t a n hA hN]
  simp only [updateNode]
  rw [(foldUnbind_world a.GPUIDs (updateAllocation w (releasedAllocation a t))).1]
  rfl

theorem Free_allocations (w : World) (allocationID : String) (t : Int) (a : Allocation)
    (n : Node)
    (hA : getAllocation w allocationID = some a)
    (hN : getNode w a.NodeID = some n) :
    (Free w allocationID t).1.allocations =
      w.allocations.map (fun x => if x.ID == (releasedAllocation a t).ID
        then releasedAllocation a t else x) := by
  rw [Free_run w allocationID t a n hA hN]
  simp only [updateNode]
  rw [(foldUnbind_world a.GPUIDs (updateAllocation w (releasedAllocation a t))).2.1]
  rfl

/-- C5 (amended): `Free` is NOT idempotent on already-released
allocations.  The first `Free` succeeds and adds the released amounts
to the node's availability counters; a second `Free` on the same
allocation succeeds again, re-stamps `CompletedAt` with the later
time, and adds the released GPU count, CPU cores and memory to the
node's counters a second time. -/
theorem Free_double_release (w : World) (allocationID : String) (t1 t2 : Int)
    (a : Allocation) (n : Node)
    (hA : getAllocation w allocationID = some a)
    (hN : getNode w a.NodeID = some n) :
    (Free w allocationID t1).2 = true ∧
    getNode (Free w allocationID t1).1 a.NodeID = some (incrementedNode a n) ∧
    (Free (Free w allocationID t1).1 allocationID t2).2 = true ∧
    getAllocation (Free (Free w allocationID t1).1 allocationID t2).1 allocationID =
      some (releasedAllocation a t2) ∧
    getNode (Free (Free w allocationID t1).1 allocationID t2).1 a.NodeID =
      some (incrementedNode a (incrementedNode a n)) := by
  have hid : a.ID = allocationID := by simpa using List.find?_some hA
  have hnid : n.ID = a.NodeID := by simpa using List.find?_some hN
  have hmemA : a ∈ w.allocations := List.mem_of_find?_eq_some hA
  have hmemN : n ∈ w.nodes := List.mem_of_find?_eq_some hN
  have h2 : (Free w allocationID t1).2 = true := by
    rw [Free_run w allocationID t1 a n hA hN]
  have hN1 : getNode (Free w allocationID t1).1 a.NodeID =
      some (incrementedNode a n) := by
    rw [getNode, Free_nodes w allocationID t1 a n hA hN, ← hnid]
    exact find_replace_self (fun x : Node => x.ID) w.nodes (incrementedNode a n)
      ⟨n, hmemN, rfl⟩
  have hA1 : getAllocation (Free w allocationID t1).1 allocationID =
      some (releasedAllocation a t1) := by
    rw [getAllocation, Free_allocations w allocationID t1 a n hA hN, ← hid]
    exact find_replace_self (fun x : Allocation => x.ID) w.allocations
      (releasedAllocation a t1) ⟨a, hmemA, rfl⟩
  have hN1x : getNode (Free w allocationID t1).1 (releasedAllocation a t1).NodeID =
      some (incrementedNode a n) := hN1
  have h2x : (Free (Free w allocationID t1).1 allocationID t2).2 = true := by
    rw [Free_run (Free w allocationID t1).1 allocationID t2 (releasedAllocation a t1)
      (incrementedNode a n) hA1 hN1x]
  have hAfin : getAllocation (Free (Free w allocationID t1).1 allocationID t2).1
      allocationID = some (releasedAllocation a t2) := by
    rw [getAllocation, Free_allocations (Free w allocationID t1).1 allocationID t2
      (releasedAllocation a t1) (incrementedNode a n) hA1 hN1x,
      find_pred_id _ (fun x : Allocation => x.ID) allocationID
        ((releasedAllocation (releasedAllocation a t1) t2).ID) (by rw [← hid]; rfl)]
    exact find_replace_self (fun x : Allocation => x.ID) (Free w allocationID t1).1.allocations
      (releasedAllocation (releasedAllocation a t1) t2)
      ⟨releasedAllocation a t1, List.mem_of_find?_eq_some hA1, rfl⟩
  have hNfin : getNode (Free (Free w allocationID t1).1 allocationID t2).1 a.NodeID =
      some (incrementedNode a (incrementedNode a n)) := by
    rw [getNode, Free_nodes (Free w allocationID t1).1 allocationID t2
      (releasedAllocation a t1) (incrementedNode a n) hA1 hN1x,
      find_pred_id _ (fun x : Node => x.ID) a.NodeID
        ((incrementedNode (releasedAllocation a t1) (incrementedNode a n)).ID)
        (by rw [← hnid]; rfl)]
    exact find_replace_self (fun x : Node => x.ID) (Free w allocationID t1).1.nodes
      (incrementedNode (releasedAllocation a t1) (incrementedNode a n))
      ⟨incrementedNode a n, List.mem_of_find?_eq_some hN1, rfl⟩
  exact ⟨h2, hN1, h2x, hAfin, hNfin⟩

/-- Counterexample for C5 as stated: after the second `Free` of
alloc-1 the node's available-GPU counter has been incremented again
(3 to 4 to 5), so the state after the second call differs from the
state after the first - `Free` is not idempotent. -/
theorem Free_not_idempotent_counterexample :
    ((getNode (Free wC5 "alloc-1" 10).1 "n1").map (fun n => n.AvailableGPUs) =
      some 4) ∧
    ((getNode (Free (Free wC5 "alloc-1" 10).1 "alloc-1" 20).1 "n1").map
      (fun n => n.AvailableGPUs) = some 5) ∧
    (Free (Free wC5 "alloc-1" 10).1 "alloc-1" 20).1 ≠ (Free wC5 "alloc-1" 10).1 := by
  refine ⟨by decide, by decide, by decide⟩

/-- Witness for the amended C5 theorem at the concrete world `wC5`. -/
theorem Free_double_release_witness :
    (getAllocation wC5 "alloc-1" = some baseAllocation ∧
     getNode wC5 baseAllocation.NodeID = some { baseNode with AvailableGPUs := 3 }) ∧
    ((Free wC5 "alloc-1" 10).2 = true ∧
     getNode (Free wC5 "alloc-1" 10).1 baseAllocation.NodeID =
       some (incrementedNode baseAllocation { baseNode with AvailableGPUs := 3 }) ∧
     (Free (Free wC5 "alloc-1" 10).1 "alloc-1" 20).2 = true ∧
     getAllocation (Free (Free wC5 "alloc-1" 10).1 "alloc-1" 20).1 "alloc-1" =
       some (releasedAllocation baseAllocation 20) ∧
     getNode (Free (Free wC5 "alloc-1" 10).1 "alloc-1" 20).1 baseAllocation.NodeID =
       some (incrementedNode baseAllocation
         (incrementedNode baseAllocation { baseNode with AvailableGPUs := 3 }))) :=
  ⟨⟨by decide, by decide⟩,
   Free_double_release wC5 "alloc-1" 10 20 baseAllocation
     { baseNode with AvailableGPUs := 3 } (by decide) (by decide)⟩

theorem preemptedJob_def (j : Job) :
    { j with State := JobState.preempted, PreemptedCount := j.PreemptedCount + 1 } =
      preemptedJob j := rfl

theorem preemptedAllocation_def (a : Allocation) (pid : String) (t : Int) :
    { a with State := AllocationState.preempted, PreemptedAt := some t,
             PreemptedBy := pid, PreemptionReason := "higher priority job" } =
      preemptedAllocation a pid t := rfl

theorem Preempt_run (w : World) (victim : Job) (pid : String) (now : Int)
    (alloc : Allocation) (node : Node)
    (hallocs : getJobAllocations w victim.ID = [alloc])
    (hN : getNode w alloc.NodeID = some node) :
    Preempt w victim pid now =
      updateNode (alloc.GPUIDs.foldl (fun acc gpuID =>
        match getGPU acc gpuID with
        | none => acc
        | some gpu => updateGPU acc { gpu with Allocated := false, AllocationID := "",
                                               JobID := "", TenantID := "" })
        (updateAllocation (updateJob w (preemptedJob victim))
          (preemptedAllocation alloc pid now)))
        (incrementedNode alloc node) := by
  have hallocs1 : getJobAllocations (updateJob w (preemptedJob victim)) victim.ID =
      [alloc] := hallocs
  have hN2 : getNode (alloc.GPUIDs.foldl (fun acc gpuID =>
      match getGPU acc gpuID with
      | none => acc
      | some gpu => updateGPU acc { gpu with Allocated := false, AllocationID := "",
                                             JobID := "", TenantID := "" })
      (updateAllocation (updateJob w (preemptedJob victim))
        (preemptedAllocation alloc pid now))) alloc.NodeID = some node := by
    rw [getNode, (foldUnbind_world alloc.GPUIDs
      (updateAllocation (updateJob w (preemptedJob victim))
        (preemptedAllocation alloc pid now))).1]
    exact hN
  simp only [Preempt, preemptedJob_def, preemptedAllocation_def, hallocs1,
    List.foldl_cons, List.foldl_nil, hN2]
  rfl

theorem Preempt_jobs (w : World) (victim : Job) (pid : String) (now : Int)
    (alloc : Allocation) (node : Node)
    (hallocs : getJobAllocations w victim.ID = [alloc])
    (hN : getNode w alloc.NodeID = some node) :
    (Preempt w victim pid now).jobs =
      w.jobs.map (fun x => if x.ID == (preemptedJob victim).ID
        then preemptedJob victim else x) := by
  rw [Preempt_run w victim pid now alloc node hallocs hN]
  simp only [updateNode]
  rw [(foldUnbind_world alloc.GPUIDs
    (updateAllocation (updateJob w (preemptedJob victim))
      (preemptedAllocation alloc pid now))).2.2.2]
  rfl

theorem Preempt_allocations (w : World) (victim : Job) (pid : String) (now : Int)
    (alloc : Allocation) (node : Node)
    (hallocs : getJobAllocations w victim.ID = [alloc])
    (hN : getNode w alloc.NodeID = some node) :
    (Preempt w victim pid now).allocations =
      w.allocations.map (fun x => if x.ID == (preemptedAllocation alloc pid now).ID
        then preemptedAllocation alloc pid now else x) := by
  rw [Preempt_run w victim pid now alloc node hallocs hN]
  simp only [updateNode]
  rw [(foldUnbind_world alloc.GPUIDs
    (updateAllocation (updateJob w (preemptedJob victim))
      (preemptedAllocation alloc pid now))).2.1]
  rfl

theorem Preempt_nodes (w : World) (victim : Job) (pid : String) (now : Int)
    (alloc : Allocation) (node : Node)
    (hallocs : getJobAllocations w victim.ID = [alloc])
    (hN : getNode w alloc.NodeID = some node) :
    (Preempt w victim pid now).nodes =
      w.nodes.map (fun x => if x.ID == (incrementedNode alloc node).ID
        then incrementedNode alloc node else x) := by
  rw [Preempt_run w victim pid now alloc node hallocs hN]
  simp only [updateNode]
  rw [(foldUnbind_world alloc.GPUIDs
    (updateAllocation (updateJob w (preemptedJob victim))
      (preemptedAllocation alloc pid now))).1]
  rfl

theorem Preempt_tenants (w : World) (victim : Job) (pid : String) (now : Int)
    (alloc : Allocation) (node : Node)
    (hallocs : getJobAllocations w victim.ID = [alloc])
    (hN : getNode w alloc.NodeID = some node) :
    (Preempt w victim pid now).tenants = w.tenants := by
  rw [Preempt_run w victim pid now alloc node hallocs hN]
  simp only [updateNode]
  rw [(foldUnbind_world alloc.GPUIDs
    (updateAllocation (updateJob w (preemptedJob victim))
      (preemptedAllocation alloc pid now))).2.2.1]
  rfl

theorem Preempt_gpus (w : World) (victim : Job) (pid : String) (now : Int)
    (alloc : Allocation) (node : Node) (gpuID : String) (gpu : GPU)
    (hallocs : getJobAllocations w victim.ID = [alloc])
    (hN : getNode w alloc.NodeID = some node)
    (hG : alloc.GPUIDs = [gpuID])
    (hGPU : getGPU w gpuID = some gpu) :
    (Preempt w victim pid now).gpus =
      w.gpus.map (fun x => if x.ID == (unboundGPU gpu).ID
        then unboundGPU gpu else x) := by
  rw [Preempt_run w victim pid now alloc node hallocs hN]
  simp only [updateNode]
  rw [hG]
  have hGPU1 : getGPU (updateAllocation (updateJob w (preemptedJob victim))
      (preemptedAllocation alloc pid now)) gpuID = some gpu := hGPU
  simp only [List.foldl_cons, List.foldl_nil, hGPU1]
  rfl

theorem unboundGPU_idem (g : GPU) : unboundGPU (unboundGPU g) = unboundGPU g := rfl

theorem Preempt_as_fold (w : World) (victim : Job) (pid : String) (now : Int) :
    Preempt w victim pid now =
      (getJobAllocations w victim.ID).foldl (preemptStep pid now)
        (updateJob w (preemptedJob victim)) := rfl

theorem foldUnbindN_world : ∀ (ids : List String) (w : World),
    ((ids.foldl (fun a gpuID =>
      match getGPU a gpuID with
      | none => a
      | some gpu => updateGPU a (unboundGPU gpu)) w).jobs = w.jobs) ∧
    ((ids.foldl (fun a gpuID =>
      match getGPU a gpuID with
      | none => a
      | some gpu => updateGPU a (unboundGPU gpu)) w).tenants = w.tenants) ∧
    ((ids.foldl (fun a gpuID =>
      match getGPU a gpuID with
      | none => a
      | some gpu => updateGPU a (unboundGPU gpu)) w).allocations = w.allocations) ∧
    ((ids.foldl (fun a gpuID =>
      match getGPU a gpuID with
      | none => a
      | some gpu => updateGPU a (unboundGPU gpu)) w).gpus = unbindList ids w.gpus) ∧
    ((ids.foldl (fun a gpuID =>
      match getGPU a gpuID with
      | none => a
      | some gpu => updateGPU a (unboundGPU gpu)) w).nodes = w.nodes) := by
  intro ids
  induction ids with
  | nil => intro w; exact ⟨rfl, rfl, rfl, rfl, rfl⟩
  | cons gid rest ih =>
    intro w
    cases h : getGPU w gid with
    | none =>
      have h2 : w.gpus.find? (fun x => x.ID == gid) = none := h
      simp only [List.foldl_cons, h, unbindList, h2]
      exact ih w
    | some g =>
      have h2 : w.gpus.find? (fun x => x.ID == gid) = some g := h
      simp only [List.foldl_cons, h, unbindList, h2]
      exact ih (updateGPU w (unboundGPU g))

theorem preemptStep_components (pid : String) (now : Int) (w : World) (alloc : Allocation) :
    (preemptStep pid now w alloc).jobs = w.jobs ∧
    (preemptStep pid now w alloc).tenants = w.tenants ∧
    (preemptStep pid now w alloc).allocations =
      w.allocations.map (fun x => if x.ID == (preemptedAllocation alloc pid now).ID
        then preemptedAllocation alloc pid now else x) ∧
    (preemptStep pid now w alloc).gpus = unbindList alloc.GPUIDs w.gpus ∧
    (preemptStep pid now w alloc).nodes =
      (match w.nodes.find? (fun x => x.ID == alloc.NodeID) with
       | none => w.nodes
       | some n => w.nodes.map (fun x => if x.ID == (incrementedNode alloc n).ID
           then incrementedNode alloc n else x)) := by
  have key := foldUnbindN_world alloc.GPUIDs
    (updateAllocation w (preemptedAllocation alloc pid now))
  have hn : getNode (alloc.GPUIDs.foldl (fun a gpuID =>
      match getGPU a gpuID with
      | none => a
      | some gpu => updateGPU a (unboundGPU gpu))
      (updateAllocation w (preemptedAllocation alloc pid now))) alloc.NodeID =
      w.nodes.find? (fun x => x.ID == alloc.NodeID) := by
    rw [getNode, key.2.2.2.2]
    rfl
  simp only [preemptStep, hn]
  cases hq : w.nodes.find? (fun x => x.ID == alloc.NodeID) with
  | none =>
    simp only [hq]
    exact ⟨key.1, key.2.1, key.2.2.1, key.2.2.2.1, key.2.2.2.2⟩
  | some n =>
    simp only [hq]
    refine ⟨key.1, key.2.1, key.2.2.1, key.2.2.2.1, ?_⟩
    simp only [updateNode]
    rw [key.2.2.2.2]
    rfl

theorem preemptFold_components (pid : String) (now : Int) :
    ∀ (allocs : List Allocation) (w : World),
    ((allocs.foldl (preemptStep pid now) w).jobs = w.jobs) ∧
    ((allocs.foldl (preemptStep pid now) w).tenants = w.tenants) ∧
    ((allocs.foldl (preemptStep pid now) w).allocations =
      preemptAllocList pid now allocs w.allocations) ∧
    ((allocs.foldl (preemptStep pid now) w).gpus = preemptGPUList allocs w.gpus) ∧
    ((allocs.foldl (preemptStep pid now) w).nodes = preemptNodeList allocs w.nodes) := by
  intro allocs
  induction allocs with
  | nil => intro w; exact ⟨rfl, rfl, rfl, rfl, rfl⟩
  | cons a rest ih =>
    intro w
    have hs := preemptStep_components pid now w a
    have hrec := ih (preemptStep pid now w a)
    simp only [List.foldl_cons]
    refine ⟨?_, ?_, ?_, ?_, ?_⟩
    · rw [hrec.1, hs.1]
    · rw [hrec.2.1, hs.2.1]
    · rw [hrec.2.2.1, hs.2.2.1]
      rfl
    · rw [hrec.2.2.2.1, hs.2.2.2.1]
      rfl
    · rw [hrec.2.2.2.2, hs.2.2.2.2]
      rfl

theorem unbindList_find_untouched : ∀ (ids : List String) (l : List GPU) (id0 : String),
    id0 ∉ ids →
    (unbindList ids l).find? (fun x => x.ID == id0) = l.find? (fun x => x.ID == id0) := by
  intro ids
  induction ids with
  | nil => intro l id0 _; rfl
  | cons gid rest ih =>
    intro l id0 h
    have hne : gid ≠ id0 := by
      intro hEq
      exact h (by rw [← hEq]; exact List.mem_cons_self _ _)
    have hrest : id0 ∉ rest := fun hm => h (List.mem_cons_of_mem _ hm)
    simp only [unbindList, List.foldl_cons]
    cases hf : l.find? (fun x => x.ID == gid) with
    | none =>
      simp only [hf]
      exact ih l id0 hrest
    | some g =>
      simp only [hf]
      have hgid : g.ID = gid := by simpa using List.find?_some hf
      exact (ih _ id0 hrest).trans
        (find_replace_ne (fun x : GPU => x.ID) l (unboundGPU g) id0
          (show g.ID ≠ id0 by rw [hgid]; exact hne))

theorem unbindList_find_mem : ∀ (ids : List String) (l : List GPU) (id0 : String) (g0 : GPU),
    l.find? (fun x => x.ID == id0) = some g0 → id0 ∈ ids →
    (unbindList ids l).find? (fun x => x.ID == id0) = some (unboundGPU g0) := by
  intro ids
  induction ids with
  | nil => intro l id0 g0 _ hm; exact absurd hm (List.not_mem_nil id0)
  | cons gid rest ih =>
    intro l id0 g0 hf hm
    by_cases hEq : gid = id0
    · subst hEq
      simp only [unbindList, List.foldl_cons, hf]
      have hg0 : g0.ID = gid := by simpa using List.find?_some hf
      have hafter : (l.map (fun x => if x.ID == (unboundGPU g0).ID
          then unboundGPU g0 else x)).find? (fun x => x.ID == gid) =
          some (unboundGPU g0) := by
        rw [find_pred_id _ (fun x : GPU => x.ID) gid ((unboundGPU g0).ID)
          (show gid = (unboundGPU g0).ID from hg0.symm)]
        exact find_replace_self (fun x : GPU => x.ID) l (unboundGPU g0)
          ⟨g0, List.mem_of_find?_eq_some hf, rfl⟩
      by_cases hm2 : gid ∈ rest
      · exact ih _ gid (unboundGPU g0) hafter hm2
      · exact (unbindList_find_untouched rest _ gid hm2).trans hafter
    · have hm2 : id0 ∈ rest := by
        rcases List.mem_cons.mp hm with h1 | h1
        · exact absurd h1.symm hEq
        · exact h1
      simp only [unbindList, List.foldl_cons]
      cases hfg : l.find? (fun x => x.ID == gid) with
      | none =>
        simp only [hfg]
        exact ih l id0 g0 hf hm2
      | some g =>
        simp only [hfg]
        have hgid : g.ID = gid := by simpa using List.find?_some hfg
        have hf1 : (l.map (fun x => if x.ID == (unboundGPU g).ID
            then unboundGPU g else x)).find? (fun x => x.ID == id0) = some g0 :=
          (find_replace_ne (fun x : GPU => x.ID) l (unboundGPU g) id0
            (show g.ID ≠ id0 by rw [hgid]; exact hEq)).trans hf
        exact ih _ id0 g0 hf1 hm2

theorem preemptGPUList_keeps : ∀ (allocs : List Allocation) (l : List GPU)
    (id0 : String) (g0 : GPU),
    l.find? (fun x => x.ID == id0) = some g0 → unboundGPU g0 = g0 →
    (preemptGPUList allocs l).find? (fun x => x.ID == id0) = some g0 := by
  intro allocs
  induction allocs with
  | nil => intro l id0 g0 hf _; exact hf
  | cons a rest ih =>
    intro l id0 g0 hf hidem
    simp only [preemptGPUList, List.foldl_cons]
    by_cases hm : id0 ∈ a.GPUIDs
    · have h1 := unbindList_find_mem a.GPUIDs l id0 g0 hf hm
      rw [hidem] at h1
      exact ih _ id0 g0 h1 hidem
    · have h1 := (unbindList_find_untouched a.GPUIDs l id0 hm).trans hf
      exact ih _ id0 g0 h1 hidem

theorem preemptGPUList_unbinds : ∀ (allocs : List Allocation) (l : List GPU)
    (a : Allocation) (id0 : String) (g0 : GPU),
    a ∈ allocs → id0 ∈ a.GPUIDs → l.find? (fun x => x.ID == id0) = some g0 →
    (preemptGPUList allocs l).find? (fun x => x.ID == id0) = some (unboundGPU g0) := by
  intro allocs
  induction allocs with
  | nil => intro l a id0 g0 hmem _ _; exact absurd hmem (List.not_mem_nil a)
  | cons b rest ih =>
    intro l a id0 g0 hmem hgm hf
    simp only [preemptGPUList, List.foldl_cons]
    rcases List.mem_cons.mp hmem with rfl | hmem2
    · have h1 := unbindList_find_mem a.GPUIDs l id0 g0 hf hgm
      exact preemptGPUList_keeps rest _ id0 (unboundGPU g0) h1 rfl
    · by_cases hbm : id0 ∈ b.GPUIDs
      · have h1 := unbindList_find_mem b.GPUIDs l id0 g0 hf hbm
        exact ih _ a id0 (unboundGPU g0) hmem2 hgm h1
      · have h1 := (unbindList_find_untouched b.GPUIDs l id0 hbm).trans hf
        exact ih _ a id0 g0 hmem2 hgm h1

theorem preemptAllocList_find_untouched (pid : String) (now : Int) :
    ∀ (allocs : List Allocation) (l : List Allocation) (id0 : String),
    (∀ b ∈ allocs, b.ID ≠ id0) →
    (preemptAllocList pid now allocs l).find? (fun x => x.ID == id0) =
      l.find? (fun x => x.ID == id0) := by
  intro allocs
  induction allocs with
  | nil => intro l id0 _; rfl
  | cons b rest ih =>
    intro l id0 h
    simp only [preemptAllocList, List.foldl_cons]
    exact (ih _ id0 (fun c hc => h c (List.mem_cons_of_mem _ hc))).trans
      (find_replace_ne (fun x : Allocation => x.ID) l (preemptedAllocation b pid now)
        id0 (show b.ID ≠ id0 from h b (List.mem_cons_self _ _)))

theorem preemptAllocList_find (pid : String) (now : Int) :
    ∀ (allocs : List Allocation) (l : List Allocation) (a : Allocation),
    a ∈ allocs → (allocs.map (fun x => x.ID)).Nodup → a ∈ l →
    (preemptAllocList pid now allocs l).find? (fun x => x.ID == a.ID) =
      some (preemptedAllocation a pid now) := by
  intro allocs
  induction allocs with
  | nil => intro l a hmem _ _; exact absurd hmem (List.not_mem_nil a)
  | cons b rest ih =>
    intro l a hmem hnodup hl
    simp only [List.map_cons, List.nodup_cons] at hnodup
    simp only [preemptAllocList, List.foldl_cons]
    rcases List.mem_cons.mp hmem with rfl | hmem2
    · have hafter : (l.map (fun x => if x.ID == (preemptedAllocation a pid now).ID
          then preemptedAllocation a pid now else x)).find? (fun x => x.ID == a.ID) =
          some (preemptedAllocation a pid now) := by
        rw [find_pred_id _ (fun x : Allocation => x.ID) a.ID
          ((preemptedAllocation a pid now).ID) rfl]
        exact find_replace_self (fun x : Allocation => x.ID) l
          (preemptedAllocation a pid now) ⟨a, hl, rfl⟩
      have hfresh : ∀ c ∈ rest, c.ID ≠ a.ID := by
        intro c hc hEq
        exact hnodup.1 (by rw [← hEq]; exact List.mem_map_of_mem (fun x : Allocation => x.ID) hc)
      exact (preemptAllocList_find_untouched pid now rest _ a.ID hfresh).trans hafter
    · have hb : a.ID ≠ b.ID := by
        intro hEq
        exact hnodup.1 (by rw [← hEq]; exact List.mem_map_of_mem (fun x : Allocation => x.ID) hmem2)
      have hl1 : a ∈ l.map (fun x => if x.ID == (preemptedAllocation b pid now).ID
          then preemptedAllocation b pid now else x) :=
        mem_replace_of_ne (fun x : Allocation => x.ID) l (preemptedAllocation b pid now)
          a hl hb
      exact ih _ a hmem2 hnodup.2 hl1

theorem preemptNodeList_find : ∀ (allocs : List Allocation) (l : List Node)
    (nid : String) (n0 : Node),
    l.find? (fun x => x.ID == nid) = some n0 →
    (preemptNodeList allocs l).find? (fun x => x.ID == nid) =
      some ((allocs.filter (fun a => a.NodeID == nid)).foldl
        (fun nn a => incrementedNode a nn) n0) := by
  intro allocs
  induction allocs with
  | nil => intro l nid n0 hf; exact hf
  | cons a rest ih =>
    intro l nid n0 hf
    simp only [preemptNodeList, List.foldl_cons, List.filter_cons]
    by_cases ha : a.NodeID = nid
    · subst ha
      have hn0 : n0.ID = a.NodeID := by simpa using List.find?_some hf
      simp only [hf, beq_self_eq_true, if_true]
      have hafter : (l.map (fun x => if x.ID == (incrementedNode a n0).ID
          then incrementedNode a n0 else x)).find? (fun x => x.ID == a.NodeID) =
          some (incrementedNode a n0) := by
        rw [find_pred_id _ (fun x : Node => x.ID) a.NodeID ((incrementedNode a n0).ID)
          (show a.NodeID = (incrementedNode a n0).ID from hn0.symm)]
        exact find_replace_self (fun x : Node => x.ID) l (incrementedNode a n0)
          ⟨n0, List.mem_of_find?_eq_some hf, rfl⟩
      exact ih _ a.NodeID (incrementedNode a n0) hafter
    · have hb : (a.NodeID == nid) = false := beq_eq_false_iff_ne.mpr ha
      simp only [hb, Bool.false_eq_true, if_false]
      cases hfa : l.find? (fun x => x.ID == a.NodeID) with
      | none =>
        simp only [hfa]
        exact ih l nid n0 hf
      | some m =>
        simp only [hfa]
        have hm : m.ID = a.NodeID := by simpa using List.find?_some hfa
        have hf1 : (l.map (fun x => if x.ID == (incrementedNode a m).ID
            then incrementedNode a m else x)).find? (fun x => x.ID == nid) = some n0 :=
          (find_replace_ne (fun x : Node => x.ID) l (incrementedNode a m) nid
            (show m.ID ≠ nid by rw [hm]; exact ha)).trans hf
        exact ih _ nid n0 hf1

/-- C3 (amended): after Preempt(victim) - for a victim present in the
store whose allocation rows carry distinct ids - the victim job is
Preempted with `PreemptedCount` incremented; EVERY allocation of the
victim is Preempted with `PreemptedAt = now`, `PreemptedBy` the
preemptor and the reason stamped; EVERY GPU listed by any of those
allocations is unbound; every node gets back, allocation by
allocation, the released GPU/CPU/memory amounts of the victim
allocations it hosted - but the tenants table is ENTIRELY unchanged:
the code never decrements the victim tenant usage, contrary to the
claim. -/
theorem Preempt_effects (w : World) (victim : Job) (pid : String) (now : Int)
    (hJ : getJob w victim.ID = some victim)
    (hNodup : ((getJobAllocations w victim.ID).map (fun x => x.ID)).Nodup) :
    getJob (Preempt w victim pid now) victim.ID = some (preemptedJob victim) ∧
    (∀ a ∈ getJobAllocations w victim.ID,
      getAllocation (Preempt w victim pid now) a.ID =
        some (preemptedAllocation a pid now)) ∧
    (∀ a ∈ getJobAllocations w victim.ID, ∀ gid ∈ a.GPUIDs, ∀ g : GPU,
      getGPU w gid = some g →
      getGPU (Preempt w victim pid now) gid = some (unboundGPU g)) ∧
    (∀ nid : String, ∀ n : Node, getNode w nid = some n →
      getNode (Preempt w victim pid now) nid =
        some (((getJobAllocations w victim.ID).filter
          (fun a => a.NodeID == nid)).foldl (fun nn a => incrementedNode a nn) n)) ∧
    (Preempt w victim pid now).tenants = w.tenants := by
  have hfold := preemptFold_components pid now (getJobAllocations w victim.ID)
    (updateJob w (preemptedJob victim))
  refine ⟨?_, ?_, ?_, ?_, ?_⟩
  · rw [getJob, Preempt_as_fold, hfold.1]
    rw [show (updateJob w (preemptedJob victim)).jobs =
        w.jobs.map (fun x => if x.ID == (preemptedJob victim).ID
          then preemptedJob victim else x) from rfl,
      find_pred_id _ (fun x : Job => x.ID) victim.ID ((preemptedJob victim).ID) rfl]
    exact find_replace_self (fun x : Job => x.ID) w.jobs (preemptedJob victim)
      ⟨victim, List.mem_of_find?_eq_some hJ, rfl⟩
  · intro a ha
    rw [getAllocation, Preempt_as_fold, hfold.2.2.1]
    exact preemptAllocList_find pid now (getJobAllocations w victim.ID)
      w.allocations a ha hNodup (List.mem_of_mem_filter ha)
  · intro a ha gid hgid g hg
    rw [getGPU, Preempt_as_fold, hfold.2.2.2.1]
    exact preemptGPUList_unbinds (getJobAllocations w victim.ID) w.gpus a gid g
      ha hgid hg
  · intro nid n hn
    rw [getNode, Preempt_as_fold, hfold.2.2.2.2]
    exact preemptNodeList_find (getJobAllocations w victim.ID) w.nodes nid n hn
  · rw [Preempt_as_fold, hfold.2.1]
    rfl

/-- Counterexample for C3 as stated: in `wC3` the victim declares one
GPU and its tenant currently shows 1 GPU / 2 cores / 1 job of usage;
after `Preempt` the tenant row is bit-for-bit unchanged, so the usage
was NOT decreased by the victim resources. -/
theorem Preempt_tenant_not_decremented_counterexample :
    victimC3.GPUCount = 1 ∧
    getTenant wC3 "t1" = some tenantC3 ∧ tenantC3.CurrentGPUs = 1 ∧
    getTenant (Preempt wC3 victimC3 "job-2" 100) "t1" = some tenantC3 := by
  refine ⟨by decide, by decide, by decide, by decide⟩

/-- Witness for the amended C3 theorem at the concrete world `wC3b`,
where the victim holds TWO one-GPU allocations on the same node. -/
theorem Preempt_effects_witness :
    (getJob wC3b victimC3.ID = some victimC3 ∧
     ((getJobAllocations wC3b victimC3.ID).map (fun x => x.ID)).Nodup) ∧
    (getJob (Preempt wC3b victimC3 "job-2" 100) victimC3.ID =
       some (preemptedJob victimC3) ∧
     (∀ a ∈ getJobAllocations wC3b victimC3.ID,
       getAllocation (Preempt wC3b victimC3 "job-2" 100) a.ID =
         some (preemptedAllocation a "job-2" 100)) ∧
     (∀ a ∈ getJobAllocations wC3b victimC3.ID, ∀ gid ∈ a.GPUIDs, ∀ g : GPU,
       getGPU wC3b gid = some g →
       getGPU (Preempt wC3b victimC3 "job-2" 100) gid = some (unboundGPU g)) ∧
     (∀ nid : String, ∀ n : Node, getNode wC3b nid = some n →
       getNode (Preempt wC3b victimC3 "job-2" 100) nid =
         some (((getJobAllocations wC3b victimC3.ID).filter
           (fun a => a.NodeID == nid)).foldl (fun nn a => incrementedNode a nn) n)) ∧
     (Preempt wC3b victimC3 "job-2" 100).tenants = wC3b.tenants) :=
  ⟨⟨by decide, by decide⟩,
   Preempt_effects wC3b victimC3 "job-2" 100 (by decide) (by decide)⟩

theorem selLoop_no_improve : ∀ (l : List Job) (p0 : Int) (j0 : Option Job),
    (∀ c ∈ l, p0 ≤ c.Priority) →
    l.foldl (fun acc c => if c.Priority < acc.1 then (c.Priority, some c) else acc)
      (p0, j0) = (p0, j0) := by
  intro l
  induction l with
  | nil => intro p0 j0 h; rfl
  | cons a t ih =>
    intro p0 j0 h
    have ha : p0 ≤ a.Priority := h a (List.mem_cons_self _ _)
    simp only [List.foldl_cons]
    rw [if_neg (not_lt.mpr ha)]
    exact ih p0 j0 (fun c hc => h c (List.mem_cons_of_mem _ hc))

theorem selLoop_first_min : ∀ (l1 : List Job) (v : Job) (l2 : List Job)
    (p0 : Int) (j0 : Option Job),
    v.Priority < p0 →
    (∀ c ∈ l1, v.Priority < c.Priority) →
    (∀ c ∈ l2, v.Priority ≤ c.Priority) →
    (l1 ++ v :: l2).foldl
      (fun acc c => if c.Priority < acc.1 then (c.Priority, some c) else acc)
      (p0, j0) = (v.Priority, some v) := by
  intro l1
  induction l1 with
  | nil =>
    intro v l2 p0 j0 hv h1 h2
    simp only [List.nil_append, List.foldl_cons]
    rw [if_pos hv]
    exact selLoop_no_improve l2 v.Priority (some v) h2
  | cons a t ih =>
    intro v l2 p0 j0 hv h1 h2
    have ha : v.Priority < a.Priority := h1 a (List.mem_cons_self _ _)
    simp only [List.cons_append, List.foldl_cons]
    by_cases hc : a.Priority < p0
    · rw [if_pos hc]
      exact ih v l2 a.Priority (some a) ha
        (fun c hcm => h1 c (List.mem_cons_of_mem _ hcm)) h2
    · rw [if_neg hc]
      exact ih v l2 p0 j0 hv
        (fun c hcm => h1 c (List.mem_cons_of_mem _ hcm)) h2

/-- C6 (amended): `SelectVictims` keeps as candidates exactly the
Running jobs with priority strictly below the requester whose tenant
allows preemption, and returns the FIRST candidate in store
enumeration order among those of minimal priority (provided that
priority beats the 999999 seed) - the tie between equal-priority
candidates is broken by enumeration order, not by earliest
`started_at`. -/
theorem SelectVictims_first_min (w : World) (rj : Job) (l1 l2 : List Job) (v : Job)
    (hcand : (listJobsByState w JobState.running).filter (isPreemptionCandidate w rj) =
      l1 ++ v :: l2)
    (hsent : v.Priority < 999999)
    (h1 : ∀ c ∈ l1, v.Priority < c.Priority)
    (h2 : ∀ c ∈ l2, v.Priority ≤ c.Priority) :
    SelectVictims w rj = [v] ∧
    v.Priority < rj.Priority ∧
    (∃ t, getTenant w v.TenantID = some t ∧ t.AllowPreemption = true) ∧
    (∀ c ∈ l1 ++ v :: l2, v.Priority ≤ c.Priority) := by
  have hvmem : v ∈ (listJobsByState w JobState.running).filter
      (isPreemptionCandidate w rj) := by
    rw [hcand]; exact List.mem_append_right _ (List.mem_cons_self _ _)
  have hvpred : isPreemptionCandidate w rj v = true := List.of_mem_filter hvmem
  simp only [isPreemptionCandidate, Bool.and_eq_true, decide_eq_true_eq] at hvpred
  refine ⟨?_, hvpred.1, ?_, ?_⟩
  · simp only [SelectVictims, hcand]
    rw [selLoop_first_min l1 v l2 999999 none hsent h1 h2]
  · cases hT : getTenant w v.TenantID with
    | none =>
      rw [hT] at hvpred
      exact absurd hvpred.2 (by simp)
    | some t =>
      rw [hT] at hvpred
      exact ⟨t, rfl, hvpred.2⟩
  · intro c hc
    rcases List.mem_append.mp hc with hcl | hcr
    · exact le_of_lt (h1 c hcl)
    · rcases List.mem_cons.mp hcr with rfl | hc2
      · exact le_refl _
      · exact h2 c hc2

/-- Counterexample for C6 as stated: two equal-priority running
candidates; the one started at time 5 should win the started_at
tiebreak, but the code returns the one started at time 50 because it
is enumerated first. -/
theorem SelectVictims_tiebreak_counterexample :
    jobLateC6.Priority = jobEarlyC6.Priority ∧
    jobLateC6.StartedAt = some 50 ∧
    jobEarlyC6.StartedAt = some 5 ∧
    jobEarlyC6 ∈ listJobsByState wC6 JobState.running ∧
    isPreemptionCandidate wC6 requesterC6 jobEarlyC6 = true ∧
    SelectVictims wC6 requesterC6 = [jobLateC6] ∧
    jobLateC6 ≠ jobEarlyC6 := by decide

/-- Witness for the amended C6 theorem at the concrete world `wC6`. -/
theorem SelectVictims_first_min_witness :
    ((listJobsByState wC6 JobState.running).filter
        (isPreemptionCandidate wC6 requesterC6) =
      [] ++ jobLateC6 :: [jobEarlyC6] ∧
     jobLateC6.Priority < 999999 ∧
     (∀ c ∈ ([] : List Job), jobLateC6.Priority < c.Priority) ∧
     (∀ c ∈ [jobEarlyC6], jobLateC6.Priority ≤ c.Priority)) ∧
    (SelectVictims wC6 requesterC6 = [jobLateC6] ∧
     jobLateC6.Priority < requesterC6.Priority ∧
     (∃ t, getTenant wC6 jobLateC6.TenantID = some t ∧ t.AllowPreemption = true) ∧
     (∀ c ∈ [] ++ jobLateC6 :: [jobEarlyC6], jobLateC6.Priority ≤ c.Priority)) :=
  ⟨⟨by decide, by decide, by decide, by decide⟩,
   SelectVictims_first_min wC6 requesterC6 [] [jobEarlyC6] jobLateC6
     (by decide) (by decide) (by decide) (by decide)⟩

theorem Peek_some_not_empty (q : Queue) (job : Job) (h : q.Peek = some job) :
    q.IsEmpty = false := by
  cases hit : q.items with
  | nil =>
    simp only [Queue.Peek, hit] at h
    exact Option.noConfusion h
  | cons a t => simp [Queue.IsEmpty, hit]

/-- C7: if the job at the head of the (aged) queue cannot be allocated
and either preemption is disabled, or the failure is not a resource
error, or preemption takes no victim, then the scheduling cycle stops
there: the queue is exactly the aged queue (nothing behind the head is
dequeued) and no job is transitioned to Running. -/
theorem cycle_head_blocking (cfg : SchedulerConfig) (w : World) (q : Queue)
    (now : Int) (fuel : Nat) (job : Job)
    (hpeek : (q.ApplyAging 10 300000000000 now).Peek = some job)
    (hblock :
      (∃ e, (tryAllocateJob w job now).2.2 = some e ∧
        (cfg.EnablePreemption = false ∨ IsResourceError e = false ∨
         (tryPreemption (tryAllocateJob w job now).1 cfg job now).2 = false)) ∨
      ((tryAllocateJob w job now).2.2 = none ∧
       (tryAllocateJob w job now).2.1 = false)) :
    (schedulingCycle cfg w q now fuel).2.1 = q.ApplyAging 10 300000000000 now ∧
    (schedulingCycle cfg w q now fuel).2.2 = [] := by
  have hne : (q.ApplyAging 10 300000000000 now).IsEmpty = false :=
    Peek_some_not_empty _ _ hpeek
  simp only [schedulingCycle]
  cases fuel with
  | zero => exact ⟨rfl, rfl⟩
  | succ n =>
    rcases htA : tryAllocateJob w job now with ⟨w1, allocated, err⟩
    simp only [cycleLoop, hne, Bool.false_eq_true, if_false, hpeek, htA]
    rcases hblock with ⟨e, he, hor⟩ | ⟨hnone, hfalse⟩
    · have herr : err = some e := by rw [htA] at he; exact he
      rcases hor with hEP | hRE | hTP
      · simp only [herr, hEP, Bool.false_and]
        simp
      · simp only [herr, hRE, Bool.and_false]
        simp
      · simp only [herr]
        by_cases hc : (cfg.EnablePreemption && IsResourceError e) = true
        · rw [if_pos hc]
          have hTP1 : (tryPreemption w1 cfg job now).2 = false := by
            rw [htA] at hTP; exact hTP
          rcases htP : tryPreemption w1 cfg job now with ⟨w2, preempted⟩
          have hp : preempted = false := by rw [htP] at hTP1; exact hTP1
          simp only [htP, hp, Bool.false_eq_true, if_false]
          simp
        · rw [if_neg hc]
          exact ⟨rfl, rfl⟩
    · have herr : err = none := by rw [htA] at hnone; exact hnone
      have hall : allocated = false := by rw [htA] at hfalse; exact hfalse
      simp only [herr, hall, Bool.false_eq_true, if_false]
      simp

/-- Witness for C7: in `wC7` there are no nodes, so the head fails
with a resource error while preemption is disabled; the cycle changes
neither the queue nor any job state. -/
theorem cycle_head_blocking_witness :
    ((qC7.ApplyAging 10 300000000000 1).Peek = some baseJob ∧
     (tryAllocateJob wC7 baseJob 1).2.2 = some AllocError.insufficientResources ∧
     cfgC7.EnablePreemption = false) ∧
    ((schedulingCycle cfgC7 wC7 qC7 1 5).2.1 = qC7.ApplyAging 10 300000000000 1 ∧
     (schedulingCycle cfgC7 wC7 qC7 1 5).2.2 = []) :=
  ⟨⟨by decide, by decide, by decide⟩,
   cycle_head_blocking cfgC7 wC7 qC7 1 5 baseJob (by decide)
     (Or.inl ⟨AllocError.insufficientResources, by decide, Or.inl (by decide)⟩)⟩

theorem stampSeq_mem : ∀ (l : List Job) (t : Int) (j : Job), j ∈ l →
    ∃ it ∈ stampSeq l t, it.Job = j := by
  intro l
  induction l with
  | nil => intro t j h; exact absurd h (List.not_mem_nil j)
  | cons a rest ih =>
    intro t j h
    rcases List.mem_cons.mp h with rfl | h2
    · exact ⟨{ Job := j, Priority := j.Priority, EnqueuedAt := t, AgingBoost := 0 },
        List.mem_cons_self _ _, rfl⟩
    · rcases ih (t + 1) j h2 with ⟨it, hmem, hj⟩
      exact ⟨it, List.mem_cons_of_mem _ hmem, hj⟩

theorem Enqueue_ok_of (q : Queue) (job : Job) (now : Int)
    (hcap : ¬ q.items.length ≥ q.maxSize)
    (hdup : q.items.any (fun it => it.Job.ID == job.ID) = false) :
    q.Enqueue job now = Except.ok { q with items := heapPush q.items { Job := job, Priority := job.Priority, EnqueuedAt := now, AgingBoost := 0 } } := by
  simp only [Queue.Enqueue, if_neg hcap, hdup, Bool.false_eq_true, if_false]

theorem enqueueSeq_perm : ∀ (l : List Job) (q : Queue) (t : Int),
    q.items.length + l.length ≤ q.maxSize →
    ((l.map (fun j => j.ID)).Nodup) →
    (∀ j ∈ l, ∀ it ∈ q.items, it.Job.ID ≠ j.ID) →
    (enqueueSeq q t l).items.Perm (q.items ++ stampSeq l t) := by
  intro l
  induction l with
  | nil =>
    intro q t _ _ _
    simp [enqueueSeq, stampSeq]
  | cons j rest ih =>
    intro q t hlen hnodup hfresh
    have hcap : ¬ q.items.length ≥ q.maxSize := by
      simp only [List.length_cons] at hlen; omega
    have hdup : q.items.any (fun it => it.Job.ID == j.ID) = false := by
      rw [List.any_eq_false]
      intro it hit
      simpa using hfresh j (List.mem_cons_self _ _) it hit
    simp only [enqueueSeq, Enqueue_ok_of q j t hcap hdup]
    have hpush := heapPush_perm q.items { Job := j, Priority := j.Priority, EnqueuedAt := t, AgingBoost := 0 }
    have hlen1 : (heapPush q.items { Job := j, Priority := j.Priority, EnqueuedAt := t, AgingBoost := 0 }).length + rest.length ≤ q.maxSize := by
      have hl := hpush.length_eq
      simp only [List.length_cons] at hl
      simp only [List.length_cons] at hlen
      omega
    have hnodup1 : (rest.map (fun x => x.ID)).Nodup := by
      simp only [List.map_cons, List.nodup_cons] at hnodup
      exact hnodup.2
    have hfresh1 : ∀ x ∈ rest, ∀ it ∈ heapPush q.items { Job := j, Priority := j.Priority, EnqueuedAt := t, AgingBoost := 0 }, it.Job.ID ≠ x.ID := by
      intro x hx it hit
      have hit2 : it ∈ ({ Job := j, Priority := j.Priority, EnqueuedAt := t, AgingBoost := 0 } : QueueItem) :: q.items := hpush.mem_iff.mp hit
      rcases List.mem_cons.mp hit2 with rfl | hit3
      · have hne : j.ID ≠ x.ID := by
          intro hEq
          have hj1 : (j.ID ∉ rest.map (fun y => y.ID)) := by
            simp only [List.map_cons, List.nodup_cons] at hnodup
            exact hnodup.1
          exact hj1 (hEq ▸ List.mem_map_of_mem _ hx)
        exact hne
      · exact hfresh x (List.mem_cons_of_mem _ hx) it hit3
    have hrec := ih { q with items := heapPush q.items { Job := j, Priority := j.Priority, EnqueuedAt := t, AgingBoost := 0 } } (t + 1) hlen1 hnodup1 hfresh1
    refine hrec.trans ?_
    have h1 : ((heapPush q.items { Job := j, Priority := j.Priority, EnqueuedAt := t, AgingBoost := 0 }) ++ stampSeq rest (t + 1)).Perm ((({ Job := j, Priority := j.Priority, EnqueuedAt := t, AgingBoost := 0 } : QueueItem) :: q.items) ++ stampSeq rest (t + 1)) :=
      hpush.append_right _
    refine h1.trans ?_
    exact List.perm_middle.symm

/-- C8 (amended): after startup every Pending job in the repository is
present in the queue, and the queue items are exactly the pending jobs
stamped in STORE order (`ListJobsByState` has no ORDER BY, so the
enqueue order is the unspecified store row order, not
submitted_at-ascending), provided the backlog fits the queue capacity
and pending job ids are distinct. -/
theorem loadPendingJobs_startup (w : World) (cap : Nat) (t0 : Int)
    (hlen : (listJobsByState w JobState.pending).length ≤ cap)
    (hnodup : ((listJobsByState w JobState.pending).map (fun j => j.ID)).Nodup) :
    (loadPendingJobs w (NewQueue cap) t0).items.Perm
      (stampSeq (listJobsByState w JobState.pending) t0) ∧
    ∀ j ∈ listJobsByState w JobState.pending,
      ∃ it ∈ (loadPendingJobs w (NewQueue cap) t0).items, it.Job = j := by
  have hperm0 : (loadPendingJobs w (NewQueue cap) t0).items.Perm
      ([] ++ stampSeq (listJobsByState w JobState.pending) t0) :=
    enqueueSeq_perm (listJobsByState w JobState.pending) (NewQueue cap) t0
      (by simpa [NewQueue] using hlen) hnodup
      (by intro j hj it hit; simp [NewQueue] at hit)
  rw [List.nil_append] at hperm0
  refine ⟨hperm0, ?_⟩
  intro j hj
  rcases stampSeq_mem (listJobsByState w JobState.pending) t0 j hj with ⟨it, hmem, hit⟩
  exact ⟨it, hperm0.mem_iff.mpr hmem, hit⟩

/-- Counterexample for C8 as stated: the store lists the pending
backlog as [job-s2 (submitted 20), job-s1 (submitted 10)]; startup
enqueues job-s2 first (enqueue stamp 0) and job-s1 second (stamp 1),
so the jobs are NOT enqueued in ascending submitted_at order. -/
theorem loadPendingJobs_order_counterexample :
    listJobsByState wC8 JobState.pending = [jobS2, jobS1] ∧
    jobS1.SubmittedAt = 10 ∧ jobS2.SubmittedAt = 20 ∧
    (loadPendingJobs wC8 (NewQueue 10) 0).items.map
      (fun it => (it.Job.ID, it.EnqueuedAt)) = [("job-s2", 0), ("job-s1", 1)] := by
  decide

/-- Witness for the amended C8 theorem at the concrete world `wC8`. -/
theorem loadPendingJobs_startup_witness :
    ((listJobsByState wC8 JobState.pending).length ≤ 10 ∧
     ((listJobsByState wC8 JobState.pending).map (fun j => j.ID)).Nodup) ∧
    ((loadPendingJobs wC8 (NewQueue 10) 0).items.Perm
       (stampSeq (listJobsByState wC8 JobState.pending) 0) ∧
     ∀ j ∈ listJobsByState wC8 JobState.pending,
       ∃ it ∈ (loadPendingJobs wC8 (NewQueue 10) 0).items, it.Job = j) :=
  ⟨⟨by decide, by decide⟩, loadPendingJobs_startup wC8 10 0 (by decide) (by decide)⟩

end GpuSched
